import Mathlib

/-!
Shallow embedding of the transaction ingestion and aggregation core of the
stori-challenge repository (Go), for verifying its natural-language
specification.

Embedded source files:
* internal/infrastructure/csv/reader.go  (ReadTransactions, parseTransaction,
  parseDate, parseAmount, isHeaderRow)
* internal/service/calculator.go         (CalculateSummary,
  groupTransactionsByMonth, calculateMonthlySummary, parseMonth,
  FormatSummaryForEmail)
* internal/domain (in aws/ses.go part):  Transaction, TransactionType,
  MonthlySummary, AccountSummary, IsCredit, IsDebit

Library semantics embedded from their real implementations:
* github.com/shopspring/decimal: a decimal is an arbitrary-precision integer
  coefficient together with an integer power-of-ten exponent.  We model
  NewFromString (including scientific notation), Abs, Neg, Add, Cmp,
  GreaterThan, Exponent, Div (DivRound at DivisionPrecision = 16),
  NewFromInt, and StringFixed(2).
* Go time.Parse, restricted to the ten layouts the reader uses, and
  time.Time.AddDate(y,0,0) normalization, on a pure calendar-date type.

Ambient effects not modelled (they do not enter any verified property):
uuid generation, CreatedAt/UpdatedAt timestamps, logging, S3/file I/O.
The current year (Go time.Now().Year()) is passed as an explicit parameter.
Machine-integer ranges (int32 exponents, int64 fast paths) are modelled as
unbounded integers; all in-scope inputs are far below those bounds.
-/

instance exceptDecEq {ε α : Type} [DecidableEq ε] [DecidableEq α] :
    DecidableEq (Except ε α) := fun x y =>
  match x, y with
  | .ok a, .ok b =>
      if h : a = b then .isTrue (by rw [h])
      else .isFalse (by intro hh; cases hh; exact h rfl)
  | .error a, .error b =>
      if h : a = b then .isTrue (by rw [h])
      else .isFalse (by intro hh; cases hh; exact h rfl)
  | .ok _, .error _ => .isFalse (by intro hh; cases hh)
  | .error _, .ok _ => .isFalse (by intro hh; cases hh)

/-! ### Characters and strings (Go strings / strconv helpers) -/

/-- Go unicode.IsSpace restricted to the Latin-1 range used by
strings.TrimSpace: space, tab, newline, vertical tab, form feed, carriage
return, NEL (U+0085) and NBSP (U+00A0). -/
def isGoSpace (c : Char) : Bool :=
  c == ' ' || c == '\t' || c == '\n' || c == Char.ofNat 11 ||
  c == Char.ofNat 12 || c == '\r' || c == Char.ofNat 0x85 || c == Char.ofNat 0xA0

/-- strings.TrimSpace. -/
def trimSpace (s : String) : String :=
  String.mk (((s.toList.dropWhile isGoSpace).reverse.dropWhile isGoSpace).reverse)

/-- Lower-casing of one character (ASCII range; the header keywords the reader
compares against are all ASCII). -/
def lowerChar (c : Char) : Char :=
  if 'A' ≤ c ∧ c ≤ 'Z' then Char.ofNat (c.toNat + 32) else c

/-- strings.ToLower. -/
def toLowerStr (s : String) : String :=
  String.mk (s.toList.map lowerChar)

def digitVal (c : Char) : Nat := c.toNat - '0'.toNat

def digitsToNat (l : List Char) : Nat :=
  l.foldl (fun acc c => acc * 10 + digitVal c) 0

/-- Base-10 signed integer syntax shared by strconv.ParseInt/Atoi and
math/big Int.SetString: an optional single leading sign followed by at least
one ASCII digit.  Overflow checks are not modelled (unbounded integers). -/
def goParseInt (l : List Char) : Option Int :=
  match l with
  | [] => none
  | '+' :: rest =>
      if rest ≠ [] ∧ rest.all Char.isDigit then some (digitsToNat rest) else none
  | '-' :: rest =>
      if rest ≠ [] ∧ rest.all Char.isDigit then some (-(digitsToNat rest : Int)) else none
  | _ => if l.all Char.isDigit then some (digitsToNat l) else none

/-- strconv.Atoi (sign and digits; the int range check is not modelled). -/
def goAtoi (s : String) : Option Int := goParseInt s.toList

/-! ### shopspring/decimal -/

/-- shopspring decimal.Decimal: coefficient times 10 ^ exponent. -/
structure Dec where
  val : Int
  exp : Int
deriving DecidableEq, Repr

def Dec.zero : Dec := ⟨0, 0⟩

/-- decimal.Decimal.Abs: absolute value of the coefficient, same exponent. -/
def Dec.abs (d : Dec) : Dec := ⟨|d.val|, d.exp⟩

/-- decimal.Decimal.Neg. -/
def Dec.neg (d : Dec) : Dec := ⟨-d.val, d.exp⟩

/-- Coefficient of d rescaled to exponent m (exact whenever m ≤ d.exp). -/
def Dec.rescaleVal (d : Dec) (m : Int) : Int :=
  d.val * 10 ^ (d.exp - m).toNat

/-- decimal.Decimal.Add: both operands are rescaled to the smaller exponent
and the coefficients added. -/
def Dec.add (a b : Dec) : Dec :=
  let m := min a.exp b.exp
  ⟨a.rescaleVal m + b.rescaleVal m, m⟩

/-- decimal.Decimal.Cmp: compare coefficients (big.Int Cmp) after rescaling
to the smaller exponent. -/
def Dec.cmp (a b : Dec) : Ordering :=
  let m := min a.exp b.exp
  let x := a.rescaleVal m
  let y := b.rescaleVal m
  if x < y then .lt else if x = y then .eq else .gt

/-- decimal.Decimal.GreaterThan: Cmp == 1. -/
def Dec.greaterThan (a b : Dec) : Bool := a.cmp b == .gt

/-- decimal.NewFromInt. -/
def Dec.fromInt (n : Int) : Dec := ⟨n, 0⟩

/-- The exact rational value a Dec denotes. -/
def Dec.toRat (d : Dec) : ℚ := (d.val : ℚ) * 10 ^ d.exp

/-- Split a character list at the first 'e' or 'E'
(strings.IndexAny(value, "Ee") in decimal.NewFromString). -/
def splitExpMark : List Char → List Char × Option (List Char)
  | [] => ([], none)
  | c :: rest =>
      if c == 'e' || c == 'E' then ([], some rest)
      else
        let p := splitExpMark rest
        (c :: p.1, p.2)

/-- Split a character list at the first '.', if any. -/
def dotSplit : List Char → Option (List Char × List Char)
  | [] => none
  | '.' :: rest => some ([], rest)
  | c :: rest =>
      match dotSplit rest with
      | none => none
      | some p => some (c :: p.1, p.2)

/-- The mantissa-and-decimal-point stage of decimal.NewFromString: a second
'.' is rejected, a trailing '.' with no fraction digits is rejected,
otherwise the digits are concatenated and the fraction length subtracted
from the exponent. -/
def newFromMantissa (mant : List Char) (e0 : Int) : Option Dec :=
  if 2 ≤ mant.count '.' then none
  else
    match dotSplit mant with
    | none => (goParseInt mant).map (fun v => ⟨v, e0⟩)
    | some p =>
        if p.2 = [] then none
        else (goParseInt (p.1 ++ p.2)).map (fun v => ⟨v, e0 - p.2.length⟩)

/-- decimal.NewFromString: optional scientific-notation exponent after the
first 'e'/'E', then mantissa with at most one decimal point; the integer
string (sign plus digits) is parsed in base 10. -/
def newFromString (s : String) : Option Dec :=
  let p := splitExpMark s.toList
  match p.2 with
  | some echars =>
      match goParseInt echars with
      | none => none
      | some e0 => newFromMantissa p.1 e0
  | none => newFromMantissa p.1 0

/-! ### domain.TransactionType (internal/domain) -/

/-- domain.TransactionType is a Go string type. -/
abbrev TransactionType := String

def Credit : TransactionType := "credit"

def Debit : TransactionType := "debit"

/-! ### reader.parseAmount (internal/infrastructure/csv/reader.go) -/

inductive AmountErr where
  | emptyAmount
  | invalidNumeric
  | outOfRange
  | precisionExceeded
deriving DecidableEq, Repr

/-- The leading-sign classification step of parseAmount: leading '+' is a
credit, leading '-' a debit, no sign a credit, and the sign character is
removed from the numeric remainder. -/
def stripSign (s : String) : TransactionType × String :=
  match s.toList with
  | '+' :: rest => (Credit, String.mk rest)
  | '-' :: rest => (Debit, String.mk rest)
  | _ => (Credit, s)

/-- decimal.NewFromFloat(1000000): the shortest decimal representation of
the float 1e6, coefficient 1 with exponent 6. -/
def maxAmount : Dec := ⟨1, 6⟩

/-- reader.parseAmount: trim, classify by leading sign, parse the remainder
as a decimal, force the sign to match the classification (Abs, then Neg for
a debit), then the magnitude check (|amount| > 1,000,000) followed by the
scale check (Exponent() < -2). -/
def parseAmount (s : String) : Except AmountErr (Dec × TransactionType) :=
  let t := trimSpace s
  if t = "" then .error .emptyAmount
  else
    let p := stripSign t
    match newFromString p.2 with
    | none => .error .invalidNumeric
    | some a0 =>
        let amount := if p.1 = Debit then (Dec.abs a0).neg else Dec.abs a0
        if amount.abs.greaterThan maxAmount then .error .outOfRange
        else if amount.exp < -2 then .error .precisionExceeded
        else .ok (amount, p.1)

example : parseAmount "+60.5" = .ok (⟨605, -1⟩, Credit) := by decide
example : parseAmount "-10.3" = .ok (⟨-103, -1⟩, Debit) := by decide
example : parseAmount "100" = .ok (⟨100, 0⟩, Credit) := by decide
example : parseAmount "1000000.01" = .error .outOfRange := by decide
example : parseAmount "100.123" = .error .precisionExceeded := by decide
example : parseAmount "1000000" = .ok (⟨1000000, 0⟩, Credit) := by decide
example : parseAmount "-0" = .ok (⟨0, 0⟩, Debit) := by decide
example : parseAmount "1000000.001" = .error .outOfRange := by decide
example : parseAmount "1e-3" = .error .precisionExceeded := by decide

/-! ### reader.parseDate: Go time.Parse on the reader's ten layouts -/

/-- A pure calendar date.  Go time.Parse on the layouts below produces a
time.Time with zero clock in UTC (no clock or zone tokens occur in any
layout), so a date value here stands for UTC midnight of that day. -/
structure GoDate where
  year : Int
  month : Nat
  day : Nat
deriving DecidableEq, Repr

/-- The layout tokens occurring in the reader's formats: "1" (month, one or
two digits), "01" (month, exactly two digits), "2" (day, one or two digits),
"02" (day, exactly two digits), "2006" (four-digit year), and literals. -/
inductive LayoutTok where
  | numMonth
  | zeroMonth
  | numDay
  | zeroDay
  | longYear
  | lit (c : Char)

/-- Go time getnum: one digit, or two digits when available; the zero-padded
variants demand exactly two digits. -/
def getnum (fixed : Bool) (l : List Char) : Option (Nat × List Char) :=
  match l with
  | [] => none
  | c1 :: rest =>
      if c1.isDigit then
        match rest with
        | c2 :: rest2 =>
            if c2.isDigit then some (digitVal c1 * 10 + digitVal c2, rest2)
            else if fixed then none
            else some (digitVal c1, rest)
        | [] => if fixed then none else some (digitVal c1, [])
      else none

/-- Go time stdLongYear: exactly four leading digits. -/
def getYear4 (l : List Char) : Option (Nat × List Char) :=
  match l with
  | a :: b :: c :: d :: rest =>
      if a.isDigit && b.isDigit && c.isDigit && d.isDigit then
        some (digitsToNat [a, b, c, d], rest)
      else none
  | _ => none

/-- Run one layout over the input, threading the parsed year, month and day
(Go defaults: year 0, month 1, day 1).  Left-over input is an error, as in
Go time.Parse. -/
def runLayout : List LayoutTok → List Char → Int → Nat → Nat → Option (Int × Nat × Nat)
  | [], [], y, m, d => some (y, m, d)
  | [], _ :: _, _, _, _ => none
  | tok :: toks, l, y, m, d =>
      match tok with
      | .lit c =>
          match l with
          | c2 :: rest => if c2 == c then runLayout toks rest y m d else none
          | [] => none
      | .numMonth => (getnum false l).bind fun p => runLayout toks p.2 y p.1 d
      | .zeroMonth => (getnum true l).bind fun p => runLayout toks p.2 y p.1 d
      | .numDay => (getnum false l).bind fun p => runLayout toks p.2 y m p.1
      | .zeroDay => (getnum true l).bind fun p => runLayout toks p.2 y m p.1
      | .longYear => (getYear4 l).bind fun p => runLayout toks p.2 (p.1 : Int) m d

/-- Go time isLeap.  Lean's Int mod agrees with Go's for the non-negative
years produced by the four-digit-year token and year 0. -/
def isLeap (y : Int) : Bool := y % 4 == 0 && (y % 100 != 0 || y % 400 == 0)

/-- Go time daysIn. -/
def daysIn (m : Nat) (y : Int) : Nat :=
  match m with
  | 2 => if isLeap y then 29 else 28
  | 4 | 6 | 9 | 11 => 30
  | _ => 31

/-- Go time.Parse for one layout: run the layout, then the month and day
range validation (day measured against daysIn of the parsed year). -/
def goTimeParse (layout : List LayoutTok) (s : List Char) : Option GoDate :=
  match runLayout layout s 0 1 1 with
  | none => none
  | some r =>
      if 1 ≤ r.2.1 ∧ r.2.1 ≤ 12 ∧ 1 ≤ r.2.2 ∧ r.2.2 ≤ daysIn r.2.1 r.1
      then some ⟨r.1, r.2.1, r.2.2⟩ else none

/-- The reader's format list, in source order. -/
def goFormats : List (List LayoutTok) :=
  [ [.numMonth, .lit '/', .numDay],
    [.numMonth, .lit '/', .zeroDay],
    [.zeroMonth, .lit '/', .numDay],
    [.zeroMonth, .lit '/', .zeroDay],
    [.numMonth, .lit '/', .numDay, .lit '/', .longYear],
    [.numMonth, .lit '/', .zeroDay, .lit '/', .longYear],
    [.zeroMonth, .lit '/', .numDay, .lit '/', .longYear],
    [.zeroMonth, .lit '/', .zeroDay, .lit '/', .longYear],
    [.longYear, .lit '-', .zeroMonth, .lit '-', .zeroDay],
    [.longYear, .lit '/', .zeroMonth, .lit '/', .zeroDay] ]

/-- The reader's format loop: first layout that parses wins. -/
def tryFormats : List (List LayoutTok) → List Char → Option GoDate
  | [], _ => none
  | f :: fs, s =>
      match goTimeParse f s with
      | some d => some d
      | none => tryFormats fs s

/-- Go time.Date normalization, specialized to the dates reaching it here:
the month is already in 1..12 and the day was valid in the originally parsed
year (hence at most 31, and over the target month's length by at most the
February leap-day difference), so one day-overflow carry into the next month
is exact. -/
def normDate (y : Int) (m d : Nat) : GoDate :=
  if d ≤ daysIn m y then ⟨y, m, d⟩
  else if m = 12 then ⟨y + 1, 1, d - 31⟩
  else ⟨y, m + 1, d - daysIn m y⟩

/-- Go time.Time.AddDate(years, 0, 0). -/
def addYears (d : GoDate) (years : Int) : GoDate :=
  normDate (d.year + years) d.month d.day

inductive DateErr where
  | invalidDate
deriving DecidableEq, Repr

/-- reader.parseDate: try the ten formats in order; on a match with year 0
(a yearless layout), AddDate the current year onto the parsed date. -/
def parseDate (currentYear : Int) (s : String) : Except DateErr GoDate :=
  match tryFormats goFormats s.toList with
  | some d => if d.year = 0 then .ok (addYears d currentYear) else .ok d
  | none => .error .invalidDate

example : parseDate 2023 "7/15" = .ok ⟨2023, 7, 15⟩ := by decide
example : parseDate 2025 "07/15/2023" = .ok ⟨2023, 7, 15⟩ := by decide
example : parseDate 2025 "2/29" = .ok ⟨2025, 3, 1⟩ := by decide
example : parseDate 2024 "2/29" = .ok ⟨2024, 2, 29⟩ := by decide
example : parseDate 2023 "2023-08-02" = .ok ⟨2023, 8, 2⟩ := by decide
example : parseDate 2023 "not-a-date" = .error .invalidDate := by decide

/-! ### reader.isHeaderRow -/

/-- reader.isHeaderRow, statement for statement: keyword tests on the three
columns in order, then the integer test on the first column — whose two
outcomes both yield false, exactly as in the source. -/
def isHeaderRow (record : List String) : Bool :=
  if record.length ≠ 3 then false
  else
    let firstCol := toLowerStr (trimSpace (record.getD 0 ""))
    if firstCol == "id" || firstCol == "transaction_id" then true
    else
      let secondCol := toLowerStr (trimSpace (record.getD 1 ""))
      if secondCol == "date" || secondCol == "transaction_date" then true
      else
        let thirdCol := toLowerStr (trimSpace (record.getD 2 ""))
        if thirdCol == "amount" || thirdCol == "transaction" || thirdCol == "value" then true
        else
          if (goAtoi (trimSpace (record.getD 0 ""))).isSome then false
          else false

example : isHeaderRow ["ID", "Date", "Amount"] = true := by decide
example : isHeaderRow ["transaction_id", "date", "transaction"] = true := by decide
example : isHeaderRow ["col1", "date", "col3"] = true := by decide
example : isHeaderRow ["col1", "col2", "amount"] = true := by decide
example : isHeaderRow ["1", "7/15", "+60.5"] = false := by decide
example : isHeaderRow ["TXN001", "7/15", "+60.5"] = false := by decide
example : isHeaderRow ["ID", "Date"] = false := by decide
example : isHeaderRow ["123", "date", "5"] = true := by decide

/-! ### domain.Transaction and reader.parseTransaction -/

/-- domain.Transaction restricted to the fields the verified core reads:
the generated uuid and the CreatedAt/UpdatedAt wall-clock stamps are not
consumed by any embedded operation. -/
structure Transaction where
  accountId : String
  date : GoDate
  amount : Dec
  type : TransactionType
  description : String
deriving DecidableEq, Repr

/-- Transaction.IsCredit. -/
def Transaction.isCredit (t : Transaction) : Bool := t.type == Credit

/-- Transaction.IsDebit. -/
def Transaction.isDebit (t : Transaction) : Bool := t.type == Debit

inductive TxErr where
  | malformedRecord (got : Nat)
  | missingIdentifier
  | invalidDate (raw : String) (e : DateErr)
  | invalidAmount (raw : String) (e : AmountErr)
deriving DecidableEq, Repr

/-- reader.parseTransaction: exactly 3 fields, non-empty trimmed id, then
date and amount parsing, each failure wrapped with the offending raw field. -/
def parseTransaction (currentYear : Int) (record : List String) (accountID : String) :
    Except TxErr Transaction :=
  match record with
  | [f0, f1, f2] =>
      let idStr := trimSpace f0
      if idStr = "" then .error .missingIdentifier
      else
        let dateStr := trimSpace f1
        match parseDate currentYear dateStr with
        | .error e => .error (.invalidDate dateStr e)
        | .ok transactionDate =>
            let amountStr := trimSpace f2
            match parseAmount amountStr with
            | .error e => .error (.invalidAmount amountStr e)
            | .ok pa =>
                .ok { accountId := accountID, date := transactionDate,
                      amount := pa.1, type := pa.2,
                      description := "Transaction " ++ idStr }
  | _ => .error (.malformedRecord record.length)

/-! ### reader.ReadTransactions over an already-byte-decoded record stream

The encoding/csv layer (quoting, empty-line skipping) and the file/S3
retrieval are external to the verified core; the driver is modelled over the
resulting sequence of records.  csv.Reader is configured with
FieldsPerRecord = 3, so a record with any other field count is an error of
the csv read itself, reported by the driver at line lineNumber + 1. -/

inductive ReadErr where
  | fieldCount (line : Nat) (got : Nat)
  | parseFailed (line : Nat) (cause : TxErr)
  | emptyDataset
deriving DecidableEq, Repr

/-- The line of a row-level read error (0 for emptyDataset, which is not a
row error). -/
def ReadErr.line : ReadErr → Nat
  | .fieldCount n _ => n
  | .parseFailed n _ => n
  | .emptyDataset => 0

/-- The read loop of ReadTransactions: lineNumber counts csv records read so
far; the header check applies only when the incremented counter is 1; the
first failure aborts with the 1-based line number. -/
def readLoop (currentYear : Int) (accountID : String) :
    List (List String) → Nat → List Transaction → Except ReadErr (List Transaction)
  | [], _, acc =>
      if acc.length = 0 then .error .emptyDataset else .ok acc.reverse
  | record :: rest, lineNumber, acc =>
      if record.length ≠ 3 then .error (.fieldCount (lineNumber + 1) record.length)
      else
        if lineNumber + 1 = 1 ∧ isHeaderRow record then
          readLoop currentYear accountID rest (lineNumber + 1) acc
        else
          match parseTransaction currentYear record accountID with
          | .error e => .error (.parseFailed (lineNumber + 1) e)
          | .ok t => readLoop currentYear accountID rest (lineNumber + 1) (t :: acc)

/-- reader.ReadTransactions (the per-record loop; retrieval is external). -/
def readTransactions (currentYear : Int) (rows : List (List String)) (accountID : String) :
    Except ReadErr (List Transaction) :=
  readLoop currentYear accountID rows 0 []

example :
    readTransactions 2023 [["Id", "Date", "Transaction"], ["1", "7/15", "+60.5"]] "acc" =
      .ok [{ accountId := "acc", date := ⟨2023, 7, 15⟩, amount := ⟨605, -1⟩,
             type := Credit, description := "Transaction 1" }] := by decide
example :
    readTransactions 2023 [["1", "7/15", "+60.5"], ["2", "bad"]] "acc" =
      .error (.fieldCount 2 2) := by decide
example :
    readTransactions 2023 [["Id", "Date", "Transaction"]] "acc" =
      .error .emptyDataset := by decide
example :
    readTransactions 2023 [["1", "7/15", "nope"], ["2", "7/16", "+1"]] "acc" =
      .error (.parseFailed 1 (.invalidAmount "nope" .invalidNumeric)) := by decide

/-! ### decimal Div (DivRound at DivisionPrecision 16) and StringFixed(2) -/

/-- decimal.Decimal.QuoRem at precision 16 followed by DivRound's
half-away-from-zero correction, i.e. decimal.Decimal.Div with the default
DivisionPrecision of 16.  big.Int QuoRem is truncated division (Int.tdiv /
Int.tmod).  Division by a zero decimal panics in Go and is everywhere
guarded by a positive-count check in the calculator. -/
def Dec.div (d d2 : Dec) : Dec :=
  let scale : Int := -16
  let e := d.exp - d2.exp - scale
  let aa := if e < 0 then d.val else d.val * 10 ^ e.toNat
  let bb := if e < 0 then d2.val * 10 ^ (-e).toNat else d2.val
  let rexp := if e < 0 then d.exp else scale + d2.exp
  let q := Int.tdiv aa bb
  let r := Int.tmod aa bb
  let r2 : Dec := ⟨2 * |r|, rexp + 16⟩
  if r2.cmp d2.abs = .lt then ⟨q, scale⟩
  else if d.val.sign * d2.val.sign < 0 then ⟨q - 1, scale⟩
  else ⟨q + 1, scale⟩

/-- decimal rescale: multiply the coefficient when lowering the exponent,
truncate (big.Int Quo) when raising it. -/
def Dec.rescale (d : Dec) (e : Int) : Dec :=
  if d.exp = e then d
  else if d.exp < e then ⟨Int.tdiv d.val (10 ^ (e - d.exp).toNat), e⟩
  else ⟨d.val * 10 ^ (d.exp - e).toNat, e⟩

/-- decimal.Decimal.Round(2): keep exponent -2 as is, otherwise rescale to
-3, add sign(coefficient)·5, floor-divide by ten (big.Int DivMod is
Euclidean), and bump a negative quotient when the remainder is non-zero —
half-away-from-zero rounding to two places, always landing on exponent -2. -/
def Dec.round2 (d : Dec) : Dec :=
  if d.exp = -2 then d
  else
    let r := d.rescale (-3)
    let v := if r.val < 0 then r.val - 5 else r.val + 5
    let q := Int.ediv v 10
    let m := Int.emod v 10
    ⟨if q < 0 ∧ m ≠ 0 then q + 1 else q, -2⟩

/-- decimal.Decimal.StringFixed(2): Round(2), then sign, integer digits,
point, and exactly two fraction digits (the source splits the digit string
of the absolute coefficient two places from the right and zero-pads; on an
exponent -2 value that is division by 100). -/
def Dec.stringFixed2 (d : Dec) : String :=
  let r := d.round2
  let a := r.val.natAbs
  (if r.val < 0 then "-" else "") ++ Nat.repr (a / 100) ++ "." ++
    (if a % 100 < 10 then "0" ++ Nat.repr (a % 100) else Nat.repr (a % 100))

example : Dec.stringFixed2 ⟨3974, -2⟩ = "39.74" := by decide
example : Dec.stringFixed2 ⟨0, 0⟩ = "0.00" := by decide
example : Dec.stringFixed2 ⟨-5, -1⟩ = "-0.50" := by decide
example : Dec.stringFixed2 ⟨605, -1⟩ = "60.50" := by decide
example : Dec.div ⟨-3076, -2⟩ ⟨2, 0⟩ = ⟨-153800000000000000, -16⟩ := by decide
example : Dec.stringFixed2 (Dec.div ⟨-3076, -2⟩ ⟨2, 0⟩) = "-15.38" := by decide
example : Dec.div ⟨1, 0⟩ ⟨3, 0⟩ = ⟨3333333333333333, -16⟩ := by decide
example : Dec.div ⟨2, 0⟩ ⟨3, 0⟩ = ⟨6666666666666667, -16⟩ := by decide

/-! ### calculator.go: grouping, monthly summaries, account summary -/

/-- Go time.Month.String, as produced by Date.Format("January"); months are
always 1..12 here since every embedded date passed range validation. -/
def monthName (m : Nat) : String :=
  match m with
  | 1 => "January"
  | 2 => "February"
  | 3 => "March"
  | 4 => "April"
  | 5 => "May"
  | 6 => "June"
  | 7 => "July"
  | 8 => "August"
  | 9 => "September"
  | 10 => "October"
  | 11 => "November"
  | 12 => "December"
  | n => "%!Month(" ++ Nat.repr n ++ ")"

/-- calculator.parseMonth: month name back to a month number, defaulting to
January. -/
def parseMonth (s : String) : Nat :=
  if s = "January" then 1
  else if s = "February" then 2
  else if s = "March" then 3
  else if s = "April" then 4
  else if s = "May" then 5
  else if s = "June" then 6
  else if s = "July" then 7
  else if s = "August" then 8
  else if s = "September" then 9
  else if s = "October" then 10
  else if s = "November" then 11
  else if s = "December" then 12
  else 1

/-- domain.MonthlySummary. -/
structure MonthlySummary where
  month : Nat
  year : Int
  transactionCount : Nat
  averageCredit : Dec
  averageDebit : Dec
  totalCredits : Dec
  totalDebits : Dec
  creditCount : Nat
  debitCount : Nat
deriving DecidableEq, Repr

/-- domain.AccountSummary.  The MonthlySummaries Go map is modelled as an
association list in first-encounter key order; ProcessedAt (a wall-clock
stamp consumed by no verified property) is omitted. -/
structure AccountSummary where
  accountId : String
  totalBalance : Dec
  totalTransactions : Nat
  monthlySummaries : List (String × MonthlySummary)
deriving DecidableEq, Repr

/-- One step of calculator.groupTransactionsByMonth: append the transaction
to its key's group (Go map insert plus slice append). -/
def insertGroup (key : String) (t : Transaction) :
    List (String × List Transaction) → List (String × List Transaction)
  | [] => [(key, [t])]
  | g :: rest =>
      if g.1 = key then (g.1, g.2 ++ [t]) :: rest
      else g :: insertGroup key t rest

/-- calculator.groupTransactionsByMonth: group by Date.Format("January"). -/
def groupTransactionsByMonth (transactions : List Transaction) :
    List (String × List Transaction) :=
  transactions.foldl (fun acc t => insertGroup (monthName t.date.month) t acc) []

/-- The running totals of the loops in calculateMonthlySummary and
FormatSummaryForEmail. -/
structure MonthAcc where
  totalCredits : Dec
  totalDebits : Dec
  creditCount : Nat
  debitCount : Nat
deriving DecidableEq, Repr

/-- The transaction loop of calculator.calculateMonthlySummary: credits and
debits are summed and counted by kind; a transaction that is neither (its
Type string is some third value) is skipped. -/
def monthLoop : List Transaction → MonthAcc → MonthAcc
  | [], s => s
  | t :: rest, s =>
      if t.isCredit then
        monthLoop rest { s with totalCredits := s.totalCredits.add t.amount,
                                creditCount := s.creditCount + 1 }
      else if t.isDebit then
        monthLoop rest { s with totalDebits := s.totalDebits.add t.amount,
                                debitCount := s.debitCount + 1 }
      else monthLoop rest s

/-- calculator.calculateMonthlySummary: the empty branch (unreachable from
grouping) stamps the current year; otherwise month and year come from the
first transaction of the group and each average is divided only under a
positive-count guard, with the Go zero value (exact zero) otherwise. -/
def calculateMonthlySummary (nowYear : Int) (monthKey : String)
    (transactions : List Transaction) : MonthlySummary :=
  match transactions with
  | [] =>
      { month := parseMonth monthKey, year := nowYear, transactionCount := 0,
        averageCredit := Dec.zero, averageDebit := Dec.zero,
        totalCredits := Dec.zero, totalDebits := Dec.zero,
        creditCount := 0, debitCount := 0 }
  | t0 :: _ =>
      let s := monthLoop transactions ⟨Dec.zero, Dec.zero, 0, 0⟩
      { month := t0.date.month, year := t0.date.year,
        transactionCount := transactions.length,
        averageCredit :=
          if 0 < s.creditCount then s.totalCredits.div (Dec.fromInt s.creditCount)
          else Dec.zero,
        averageDebit :=
          if 0 < s.debitCount then s.totalDebits.div (Dec.fromInt s.debitCount)
          else Dec.zero,
        totalCredits := s.totalCredits, totalDebits := s.totalDebits,
        creditCount := s.creditCount, debitCount := s.debitCount }

/-- calculator.CalculateSummary.  The Go function returns an error value
that is nil on every path; the Except models that signature. -/
def calculateSummary (nowYear : Int) (accountID : String)
    (transactions : List Transaction) : Except String AccountSummary :=
  if transactions.length = 0 then
    .ok { accountId := accountID, totalBalance := Dec.zero,
          monthlySummaries := [], totalTransactions := 0 }
  else
    let totalBalance := transactions.foldl (fun b tx => b.add tx.amount) Dec.zero
    let monthlyData := groupTransactionsByMonth transactions
    let monthlySummaries := monthlyData.map
      (fun g => (g.1, calculateMonthlySummary nowYear g.1 g.2))
    .ok { accountId := accountID, totalBalance := totalBalance,
          monthlySummaries := monthlySummaries,
          totalTransactions := transactions.length }

/-! ### calculator.FormatSummaryForEmail

Go ranges over the MonthlySummaries map twice (count lines, then overall
totals); map iteration order is unspecified, so the formatter takes the
iteration order as an explicit list, quantified over in the theorems.  The
overall-totals loop is insensitive to that order. -/

/-- The per-month count lines of FormatSummaryForEmail. -/
def formatCountLines : List (String × MonthlySummary) → String
  | [] => ""
  | g :: rest =>
      "Number of transactions in " ++ g.1 ++ ": " ++ Nat.repr g.2.transactionCount
        ++ "\n" ++ formatCountLines rest

/-- The overall-totals loop of FormatSummaryForEmail. -/
def totalsLoop : List (String × MonthlySummary) → MonthAcc → MonthAcc
  | [], s => s
  | g :: rest, s =>
      totalsLoop rest { totalCredits := s.totalCredits.add g.2.totalCredits,
                        totalDebits := s.totalDebits.add g.2.totalDebits,
                        creditCount := s.creditCount + g.2.creditCount,
                        debitCount := s.debitCount + g.2.debitCount }

/-- calculator.FormatSummaryForEmail: balance line, count lines, then the
overall average debit and credit lines, each emitted only under a
positive-count guard; no newline after the final (credit) line. -/
def formatSummaryForEmail (summary : AccountSummary)
    (order : List (String × MonthlySummary)) : String :=
  let base := "Total balance is " ++ summary.totalBalance.stringFixed2 ++ "\n"
      ++ formatCountLines order
  let s := totalsLoop order ⟨Dec.zero, Dec.zero, 0, 0⟩
  (base ++
    (if 0 < s.debitCount then
      "Average debit amount: " ++ (s.totalDebits.div (Dec.fromInt s.debitCount)).stringFixed2
        ++ "\n"
     else "")) ++
    (if 0 < s.creditCount then
      "Average credit amount: " ++ (s.totalCredits.div (Dec.fromInt s.creditCount)).stringFixed2
     else "")

/-- The 4-row dataset of the specification's worked example. -/
def exampleRows : List (List String) :=
  [["1", "7/15", "+60.5"], ["2", "7/28", "-10.3"],
   ["3", "8/2", "-20.46"], ["4", "8/13", "+10"]]

example :
    (readTransactions 2023 exampleRows "acc").map
        (fun ts => (calculateSummary 2023 "acc" ts).map
          (fun s => (s.totalBalance,
                     formatSummaryForEmail s s.monthlySummaries))) =
      .ok (.ok (⟨3974, -2⟩,
        "Total balance is 39.74\nNumber of transactions in July: 2\n" ++
        "Number of transactions in August: 2\nAverage debit amount: -15.38\n" ++
        "Average credit amount: 35.25")) := by decide

/-! ### Value-level lemmas about the decimal model -/

theorem Dec.zero_toRat : Dec.zero.toRat = 0 := by
  simp [Dec.zero, Dec.toRat]

theorem Dec.rescaleVal_toRat (d : Dec) (m : Int) (h : m ≤ d.exp) :
    ((d.rescaleVal m : Int) : ℚ) * 10 ^ m = d.toRat := by
  unfold Dec.rescaleVal Dec.toRat
  push_cast
  rw [← zpow_natCast (10 : ℚ) (d.exp - m).toNat, Int.toNat_of_nonneg (by omega)]
  rw [mul_assoc, ← zpow_add₀ (by norm_num : (10 : ℚ) ≠ 0)]
  rw [sub_add_cancel]

theorem Dec.add_toRat (a b : Dec) : (a.add b).toRat = a.toRat + b.toRat := by
  unfold Dec.add
  rw [show ((⟨a.rescaleVal (min a.exp b.exp) + b.rescaleVal (min a.exp b.exp),
      min a.exp b.exp⟩ : Dec).toRat) =
      ((a.rescaleVal (min a.exp b.exp) : ℚ) + (b.rescaleVal (min a.exp b.exp) : ℚ)) *
        10 ^ (min a.exp b.exp) by unfold Dec.toRat; push_cast; ring]
  rw [add_mul, Dec.rescaleVal_toRat a _ (min_le_left _ _),
    Dec.rescaleVal_toRat b _ (min_le_right _ _)]

theorem Dec.abs_toRat (d : Dec) : d.abs.toRat = |d.toRat| := by
  unfold Dec.abs Dec.toRat
  rw [abs_mul, abs_of_pos (a := (10 : ℚ) ^ d.exp) (zpow_pos (by norm_num) _)]
  push_cast
  rfl

theorem Dec.neg_toRat (d : Dec) : d.neg.toRat = -d.toRat := by
  unfold Dec.neg Dec.toRat
  push_cast
  ring

theorem Dec.cmp_gt_iff (a b : Dec) : a.cmp b = .gt ↔ b.toRat < a.toRat := by
  have hpow : (0 : ℚ) < 10 ^ (min a.exp b.exp) := zpow_pos (by norm_num) _
  have hval : b.toRat < a.toRat ↔
      b.rescaleVal (min a.exp b.exp) < a.rescaleVal (min a.exp b.exp) := by
    rw [← Dec.rescaleVal_toRat a _ (min_le_left _ _),
      ← Dec.rescaleVal_toRat b _ (min_le_right _ _), mul_lt_mul_right hpow]
    exact Int.cast_lt
  rw [hval]
  show (if a.rescaleVal (min a.exp b.exp) < b.rescaleVal (min a.exp b.exp) then Ordering.lt
    else if a.rescaleVal (min a.exp b.exp) = b.rescaleVal (min a.exp b.exp) then Ordering.eq
    else Ordering.gt) = .gt ↔ _
  split_ifs with h1 h2
  · constructor
    · intro hc; cases hc
    · omega
  · constructor
    · intro hc; cases hc
    · omega
  · constructor
    · intro _; omega
    · intro _; rfl

theorem Dec.greaterThan_iff (a b : Dec) :
    a.greaterThan b = true ↔ b.toRat < a.toRat := by
  have hbeq : ∀ o : Ordering, (o == Ordering.gt) = true ↔ o = Ordering.gt := by
    intro o; cases o <;> simp <;> rfl
  unfold Dec.greaterThan
  rw [hbeq]
  exact Dec.cmp_gt_iff a b

theorem maxAmount_toRat : maxAmount.toRat = 1000000 := by
  unfold maxAmount Dec.toRat
  norm_num

/-! ### Structure lemmas about parseAmount and parseTransaction -/

theorem stripSign_fst (s : String) :
    (stripSign s).1 = Credit ∨ (stripSign s).1 = Debit := by
  unfold stripSign
  split
  · left; rfl
  · right; rfl
  · left; rfl

/-- Successful parseAmount output: the kind is the leading-sign
classification and the amount is the parsed decimal with its sign forced to
match the kind. -/
theorem parseAmount_ok (s : String) (a : Dec) (k : TransactionType)
    (h : parseAmount s = .ok (a, k)) :
    k = (stripSign (trimSpace s)).1 ∧
    ∃ v, newFromString (stripSign (trimSpace s)).2 = some v ∧
      a = (if k = Debit then (Dec.abs v).neg else Dec.abs v) := by
  simp only [parseAmount] at h
  split at h
  · cases h
  · split at h
    · cases h
    · rename_i v heq
      by_cases hd : (stripSign (trimSpace s)).1 = Debit
      · rw [if_pos hd] at h
        split at h
        · cases h
        · split at h
          · cases h
          · injection h with h2
            rw [Prod.mk.injEq] at h2
            obtain ⟨ha, hk⟩ := h2
            subst hk
            exact ⟨rfl, v, heq, by rw [if_pos hd, ← ha]⟩
      · rw [if_neg hd] at h
        split at h
        · cases h
        · split at h
          · cases h
          · injection h with h2
            rw [Prod.mk.injEq] at h2
            obtain ⟨ha, hk⟩ := h2
            subst hk
            exact ⟨rfl, v, heq, by rw [if_neg hd, ← ha]⟩

/-- Successful parseTransaction output: the amount and kind come from
parseAmount on the trimmed third field. -/
theorem parseTransaction_ok (y : Int) (rec : List String) (accId : String)
    (t : Transaction) (h : parseTransaction y rec accId = .ok t) :
    ∃ f0 f1 f2, rec = [f0, f1, f2] ∧
      parseAmount (trimSpace f2) = .ok (t.amount, t.type) := by
  match rec with
  | [] => cases h
  | [_] => cases h
  | [_, _] => cases h
  | _ :: _ :: _ :: _ :: _ => cases h
  | [f0, f1, f2] =>
      refine ⟨f0, f1, f2, rfl, ?_⟩
      simp only [parseTransaction] at h
      split at h
      · cases h
      · split at h
        · cases h
        · split at h
          · cases h
          · rename_i pa hpa
            injection h with h2
            rw [← h2, hpa]

/-! ### Claim C1 -/

/-- C1 (amended): for every accepted amount string and every transaction
produced by the record parser, the kind is Credit or Debit, Credit forces
the amount non-negative and Debit forces it non-positive (not strictly
negative: a debit-classified zero such as "-0" carries amount 0),
regardless of any sign embedded in the numeric remainder. -/
theorem C1_kind_sign_agreement :
    (∀ s a k, parseAmount s = .ok (a, k) →
      (k = Credit ∨ k = Debit) ∧
      (k = Credit → 0 ≤ a.toRat) ∧ (k = Debit → a.toRat ≤ 0)) ∧
    (∀ y rec accId t, parseTransaction y rec accId = .ok t →
      (t.type = Credit → 0 ≤ t.amount.toRat) ∧
      (t.type = Debit → t.amount.toRat ≤ 0)) := by
  have main : ∀ s a k, parseAmount s = .ok (a, k) →
      (k = Credit ∨ k = Debit) ∧
      (k = Credit → 0 ≤ a.toRat) ∧ (k = Debit → a.toRat ≤ 0) := by
    intro s a k h
    obtain ⟨hk, v, _, ha⟩ := parseAmount_ok s a k h
    refine ⟨hk ▸ stripSign_fst (trimSpace s), ?_, ?_⟩
    · intro hkc
      have : ¬(k = Debit) := by rw [hkc]; decide
      rw [ha, if_neg this, Dec.abs_toRat]
      exact abs_nonneg _
    · intro hkd
      rw [ha, if_pos hkd, Dec.neg_toRat, Dec.abs_toRat]
      simp [abs_nonneg]
  refine ⟨main, ?_⟩
  intro y rec accId t h
  obtain ⟨f0, f1, f2, _, hpa⟩ := parseTransaction_ok y rec accId t h
  exact (main (trimSpace f2) t.amount t.type hpa).2

/-- C1 counterexample: the input "-0" is accepted as a Debit with amount
exactly zero, so the claimed equivalences (Credit iff amount is
non-negative, Debit iff amount is strictly negative) both fail there. -/
theorem C1_counterexample :
    parseAmount "-0" = .ok (⟨0, 0⟩, Debit) ∧
    ¬((Debit = Credit ↔ 0 ≤ Dec.toRat ⟨0, 0⟩) ∧
      (Debit = Debit ↔ Dec.toRat ⟨0, 0⟩ < 0)) := by
  constructor
  · decide
  · intro hcl
    have h0 : Dec.toRat ⟨0, 0⟩ = 0 := by unfold Dec.toRat; norm_num
    have := hcl.2.mp rfl
    rw [h0] at this
    exact absurd this (by norm_num)

theorem C1_witness :
    0 ≤ Dec.toRat ⟨605, -1⟩ ∧ Dec.toRat ⟨-103, -1⟩ ≤ 0 :=
  ⟨(C1_kind_sign_agreement.1 "+60.5" ⟨605, -1⟩ Credit (by decide)).2.1 rfl,
   (C1_kind_sign_agreement.1 "-10.3" ⟨-103, -1⟩ Debit (by decide)).2.2 rfl⟩

/-! ### Claim C2 -/

/-- C2 (amended): the integer test on the first field cannot override the
keyword tests, because the source checks it only after them (and both of
its outcomes return false).  A 3-field row whose first field parses as an
integer is classified as a header exactly when one of the keyword tests on
the three columns matches; in particular ("123", "date", "5") is classified
as a header. -/
theorem C2_integer_test_after_keywords (r : List String)
    (hlen : r.length = 3)
    (_hint : (goAtoi (trimSpace (r.getD 0 ""))).isSome = true) :
    isHeaderRow r = true ↔
      (toLowerStr (trimSpace (r.getD 0 "")) = "id" ∨
       toLowerStr (trimSpace (r.getD 0 "")) = "transaction_id" ∨
       toLowerStr (trimSpace (r.getD 1 "")) = "date" ∨
       toLowerStr (trimSpace (r.getD 1 "")) = "transaction_date" ∨
       toLowerStr (trimSpace (r.getD 2 "")) = "amount" ∨
       toLowerStr (trimSpace (r.getD 2 "")) = "transaction" ∨
       toLowerStr (trimSpace (r.getD 2 "")) = "value") := by
  simp only [isHeaderRow, hlen]
  norm_num
  tauto

/-- C2 counterexample: ("123", "date", "5") has an integer first field yet
is classified as a header (the "date" keyword on the second column wins). -/
theorem C2_counterexample :
    (goAtoi (trimSpace "123")).isSome = true ∧
    isHeaderRow ["123", "date", "5"] = true := by decide

theorem C2_witness :
    isHeaderRow ["123", "date", "5"] = true ↔
      (toLowerStr (trimSpace "123") = "id" ∨
       toLowerStr (trimSpace "123") = "transaction_id" ∨
       toLowerStr (trimSpace "date") = "date" ∨
       toLowerStr (trimSpace "date") = "transaction_date" ∨
       toLowerStr (trimSpace "5") = "amount" ∨
       toLowerStr (trimSpace "5") = "transaction" ∨
       toLowerStr (trimSpace "5") = "value") :=
  C2_integer_test_after_keywords ["123", "date", "5"] (by decide) (by decide)

/-! ### Claim C10 -/

/-- C10: in a non-leap current year, "2/29" does not fail: the yearless
layout parses February 29 in year 0 (which the Go leap rule counts as a
leap year), and adding the current year normalizes the nonexistent
February 29 to March 1 of that year. -/
theorem C10_feb29_normalizes (y : Int) (h : isLeap y = false) :
    tryFormats goFormats "2/29".toList = some ⟨0, 2, 29⟩ ∧
    isLeap 0 = true ∧
    parseDate y "2/29" = .ok ⟨y, 3, 1⟩ := by
  refine ⟨by decide, by decide, ?_⟩
  unfold parseDate
  rw [show tryFormats goFormats "2/29".toList = some ⟨0, 2, 29⟩ from by decide]
  simp only [addYears, normDate, daysIn, zero_add]
  simp [h]

theorem C10_witness :
    isLeap 2025 = false ∧ parseDate 2025 "2/29" = .ok ⟨2025, 3, 1⟩ :=
  ⟨by decide, (C10_feb29_normalizes 2025 (by decide)).2.2⟩

/-! ### Claim C5 -/

/-- The claim's measure of "digits after the decimal point" written in an
input string: the number of characters after the first '.', 0 if none. -/
def digitsAfterDecimalPoint (s : String) : Nat :=
  match dotSplit s.toList with
  | none => 0
  | some p => p.2.length

/-- Whether a string uses scientific notation (contains 'e' or 'E'). -/
def hasExpMark (s : String) : Bool :=
  s.toList.any (fun c => c == 'e' || c == 'E')

theorem splitExpMark_no_mark (l : List Char)
    (h : l.any (fun c => c == 'e' || c == 'E') = false) :
    splitExpMark l = (l, none) := by
  induction l with
  | nil => rfl
  | cons c rest ih =>
      simp only [List.any_cons, Bool.or_eq_false_iff] at h
      unfold splitExpMark
      simp [h.1, ih h.2]

/-- Digits after the first decimal point of a character list (0 if there is
no point). -/
def digitsAfterPointL (l : List Char) : Nat :=
  match dotSplit l with
  | none => 0
  | some p => p.2.length

theorem newFromMantissa_exp (mant : List Char) (e0 : Int) (v : Dec) :
    newFromMantissa mant e0 = some v →
    v.exp = e0 - (digitsAfterPointL mant : Int) := by
  intro h
  unfold newFromMantissa at h
  by_cases hc : 2 ≤ mant.count '.'
  · rw [if_pos hc] at h; cases h
  · rw [if_neg hc] at h
    unfold digitsAfterPointL
    rcases hd : dotSplit mant with _ | p
    · rw [hd] at h
      dsimp only at h ⊢
      simp only [Option.map_eq_some'] at h
      obtain ⟨w, _, hv⟩ := h
      rw [← hv]
      simp
    · rw [hd] at h
      dsimp only at h ⊢
      by_cases hp : p.2 = []
      · rw [if_pos hp] at h; cases h
      · rw [if_neg hp] at h
        simp only [Option.map_eq_some'] at h
        obtain ⟨w, _, hv⟩ := h
        rw [← hv]

/-- For a plain-notation numeric string (no exponent marker), the parsed
decimal's exponent is exactly minus the number of digits written after the
decimal point. -/
theorem newFromString_exp_of_plain (s : String) (v : Dec)
    (hplain : hasExpMark s = false) (h : newFromString s = some v) :
    v.exp = -(digitsAfterDecimalPoint s : Int) := by
  unfold hasExpMark at hplain
  unfold newFromString at h
  rw [splitExpMark_no_mark s.toList hplain] at h
  dsimp only at h
  have := newFromMantissa_exp s.toList 0 v h
  rw [this]
  have hd : digitsAfterDecimalPoint s = digitsAfterPointL s.toList := by
    unfold digitsAfterDecimalPoint digitsAfterPointL
    rfl
  rw [hd]
  omega

theorem Dec.abs_abs (v : Dec) : (Dec.abs v).abs = v.abs := by
  simp [Dec.abs, abs_abs]

theorem Dec.neg_abs_abs (v : Dec) : ((Dec.abs v).neg).abs = v.abs := by
  simp [Dec.abs, Dec.neg, abs_abs]

theorem Dec.abs_exp (v : Dec) : (Dec.abs v).exp = v.exp := rfl

theorem Dec.neg_exp (v : Dec) : (Dec.neg v).exp = v.exp := rfl

/-- Evaluation of parseAmount once the numeric remainder parses: the
magnitude check runs first, then the scale check, then success. -/
theorem parseAmount_eval (s : String) (v : Dec)
    (hv : newFromString (stripSign (trimSpace s)).2 = some v) :
    parseAmount s =
      (if v.abs.greaterThan maxAmount then .error .outOfRange
       else if v.exp < -2 then .error .precisionExceeded
       else .ok (if (stripSign (trimSpace s)).1 = Debit then (Dec.abs v).neg
                 else Dec.abs v, (stripSign (trimSpace s)).1)) := by
  have hne : ¬(trimSpace s = "") := by
    intro he
    rw [he] at hv
    have h0 : newFromString (stripSign "").2 = none := by decide
    rw [h0] at hv
    cases hv
  unfold parseAmount
  dsimp only
  rw [if_neg hne, hv]
  dsimp only
  by_cases hd : (stripSign (trimSpace s)).1 = Debit
  · rw [if_pos hd, Dec.neg_abs_abs, Dec.neg_exp, Dec.abs_exp]
  · rw [if_neg hd, Dec.abs_abs, Dec.abs_exp]

/-- C5 (amended): once the numeric remainder parses, the magnitude check
runs first: the parse fails with AmountOutOfRange exactly when the parsed
magnitude exceeds 1,000,000, and fails with AmountPrecisionExceeded exactly
when the magnitude check passes and the parsed decimal's exponent is below
-2 — which, for inputs in plain decimal notation, is exactly more than 2
digits written after the decimal point.  An accepted value is returned
exactly (up to the sign normalization), never rounded or truncated. -/
theorem C5_range_then_scale :
    (∀ s v, newFromString (stripSign (trimSpace s)).2 = some v →
      ((parseAmount s = .error .outOfRange ↔ 1000000 < |v.toRat|) ∧
       (parseAmount s = .error .precisionExceeded ↔
         |v.toRat| ≤ 1000000 ∧ v.exp < -2) ∧
       (hasExpMark (stripSign (trimSpace s)).2 = false →
         (v.exp < -2 ↔ 2 < digitsAfterDecimalPoint (stripSign (trimSpace s)).2)) ∧
       (∀ a k, parseAmount s = .ok (a, k) →
         a.toRat = if k = Debit then -|v.toRat| else |v.toRat|))) ∧
    parseAmount "1000000.01" = .error .outOfRange ∧
    parseAmount "1000000" = .ok (⟨1000000, 0⟩, Credit) ∧
    parseAmount "100.123" = .error .precisionExceeded := by
  refine ⟨?_, by decide, by decide, by decide⟩
  intro s v hv
  have heval := parseAmount_eval s v hv
  have hgt : v.abs.greaterThan maxAmount = true ↔ 1000000 < |v.toRat| := by
    rw [Dec.greaterThan_iff, maxAmount_toRat, Dec.abs_toRat]
  have c3 : hasExpMark (stripSign (trimSpace s)).2 = false →
      (v.exp < -2 ↔ 2 < digitsAfterDecimalPoint (stripSign (trimSpace s)).2) := by
    intro hplain
    have := newFromString_exp_of_plain _ v hplain hv
    omega
  refine ⟨?_, ?_, c3, ?_⟩
  · rw [heval]
    by_cases hr : v.abs.greaterThan maxAmount = true
    · rw [if_pos hr]
      simp [hgt.mp hr]
    · rw [if_neg hr]
      have hnr : ¬1000000 < |v.toRat| := fun hq => hr (hgt.mpr hq)
      by_cases he : v.exp < -2
      · rw [if_pos he]
        constructor
        · intro hcon; simp at hcon
        · intro hq; exact absurd hq hnr
      · rw [if_neg he]
        constructor
        · intro hcon; simp at hcon
        · intro hq; exact absurd hq hnr
  · rw [heval]
    by_cases hr : v.abs.greaterThan maxAmount = true
    · rw [if_pos hr]
      constructor
      · intro hcon; simp at hcon
      · intro hq; exact absurd (hgt.mp hr) (not_lt.mpr hq.1)
    · rw [if_neg hr]
      have hnr : |v.toRat| ≤ 1000000 := not_lt.mp (fun hq => hr (hgt.mpr hq))
      by_cases he : v.exp < -2
      · rw [if_pos he]
        simp [hnr, he]
      · rw [if_neg he]
        constructor
        · intro hcon; simp at hcon
        · intro hq; exact absurd hq.2 he
  · intro a k hok
    rw [heval] at hok
    by_cases hr : v.abs.greaterThan maxAmount = true
    · rw [if_pos hr] at hok; simp at hok
    · rw [if_neg hr] at hok
      by_cases he : v.exp < -2
      · rw [if_pos he] at hok; simp at hok
      · rw [if_neg he] at hok
        injection hok with h2
        rw [Prod.mk.injEq] at h2
        obtain ⟨ha, hk⟩ := h2
        subst hk
        by_cases kd : (stripSign (trimSpace s)).1 = Debit
        · rw [if_pos kd] at ha ⊢
          rw [← ha, Dec.neg_toRat, Dec.abs_toRat]
        · rw [if_neg kd] at ha ⊢
          rw [← ha, Dec.abs_toRat]

/-- C5 counterexample: "1000000.001" carries three digits after the decimal
point, yet it fails with AmountOutOfRange, not AmountPrecisionExceeded —
the magnitude check fires first, refuting "fails with
AmountPrecisionExceeded exactly when more than 2 digits follow the point". -/
theorem C5_counterexample :
    2 < digitsAfterDecimalPoint (stripSign (trimSpace "1000000.001")).2 ∧
    ¬(parseAmount "1000000.001" = .error .precisionExceeded) ∧
    parseAmount "1000000.001" = .error .outOfRange := by decide

theorem C5_witness :
    parseAmount "100.123" = .error .precisionExceeded ↔
      |Dec.toRat ⟨100123, -3⟩| ≤ 1000000 ∧ ((⟨100123, -3⟩ : Dec).exp < -2) :=
  ((C5_range_then_scale.1 "100.123" ⟨100123, -3⟩ (by decide)).2.1)

/-! ### Claim C7 -/

theorem goTimeParse_valid (f : List LayoutTok) (l : List Char) (d : GoDate)
    (h : goTimeParse f l = some d) :
    1 ≤ d.month ∧ d.month ≤ 12 ∧ 1 ≤ d.day ∧ d.day ≤ daysIn d.month d.year := by
  unfold goTimeParse at h
  rcases hr : runLayout f l 0 1 1 with _ | r
  · rw [hr] at h; cases h
  · rw [hr] at h
    dsimp only at h
    by_cases hc : 1 ≤ r.2.1 ∧ r.2.1 ≤ 12 ∧ 1 ≤ r.2.2 ∧ r.2.2 ≤ daysIn r.2.1 r.1
    · rw [if_pos hc] at h
      injection h with h2
      rw [← h2]
      exact hc
    · rw [if_neg hc] at h; cases h

theorem tryFormats_mem (fs : List (List LayoutTok)) (l : List Char) (d : GoDate)
    (h : tryFormats fs l = some d) :
    ∃ f, f ∈ fs ∧ goTimeParse f l = some d := by
  induction fs with
  | nil => cases h
  | cons f fs ih =>
      unfold tryFormats at h
      rcases hf : goTimeParse f l with _ | d2
      · rw [hf] at h
        obtain ⟨f2, hmem, hp⟩ := ih h
        exact ⟨f2, List.mem_cons_of_mem _ hmem, hp⟩
      · rw [hf] at h
        injection h with h2
        exact ⟨f, List.mem_cons_self _ _, h2 ▸ hf⟩

/-- C7 (amended): the ten layouts are tried in the listed precedence order,
first match wins; a string matching none fails with InvalidDate; a match
carrying a year keeps it (so "07/15/2023" yields 2023); a yearless match
gets the current year added with Go date normalization — that calendar date
at UTC midnight whenever the parsed month/day exists in the current year
(e.g. "7/15" always yields July 15 of the current year), while February 29
rolls over to March 1 in a non-leap current year. -/
theorem C7_layouts_and_current_year :
    (∀ (s : String) (y : Int) (d : GoDate),
        tryFormats goFormats s.toList = some d → d.year = 0 →
          parseDate y s = .ok (addYears d y) ∧
          (d.day ≤ daysIn d.month y → addYears d y = ⟨y, d.month, d.day⟩)) ∧
    (∀ (s : String) (y : Int) (d : GoDate),
        tryFormats goFormats s.toList = some d → d.year ≠ 0 →
          parseDate y s = .ok d) ∧
    (∀ (s : String) (y : Int),
        tryFormats goFormats s.toList = none → parseDate y s = .error .invalidDate) ∧
    (∀ y : Int, parseDate y "7/15" = .ok ⟨y, 7, 15⟩) ∧
    (∀ y : Int, parseDate y "07/15/2023" = .ok ⟨2023, 7, 15⟩) := by
  have part1 : ∀ (s : String) (y : Int) (d : GoDate),
      tryFormats goFormats s.toList = some d → d.year = 0 →
        parseDate y s = .ok (addYears d y) ∧
        (d.day ≤ daysIn d.month y → addYears d y = ⟨y, d.month, d.day⟩) := by
    intro s y d h hy
    constructor
    · unfold parseDate
      rw [h]
      dsimp only
      rw [if_pos hy]
    · intro hday
      unfold addYears normDate
      rw [hy, zero_add, if_pos hday]
  refine ⟨part1, ?_, ?_, ?_, ?_⟩
  · intro s y d h hy
    unfold parseDate
    rw [h]
    dsimp only
    rw [if_neg hy]
  · intro s y h
    unfold parseDate
    rw [h]
  · intro y
    have ht : tryFormats goFormats "7/15".toList = some ⟨0, 7, 15⟩ := by decide
    have := part1 "7/15" y ⟨0, 7, 15⟩ ht rfl
    have hd15 : (⟨0, 7, 15⟩ : GoDate).day ≤ daysIn (⟨0, 7, 15⟩ : GoDate).month y := by
      show (15 : Nat) ≤ daysIn 7 y
      rw [show daysIn 7 y = 31 from rfl]
      omega
    rw [this.1, this.2 hd15]
  · intro y
    unfold parseDate
    rw [show tryFormats goFormats "07/15/2023".toList = some ⟨2023, 7, 15⟩ from by decide]
    dsimp only
    norm_num

/-- C7 counterexample: "2/29" is matched by the first yearless layout as
February 29, but with current year 2025 the returned date is March 1 2025,
not the parsed calendar date February 29 2025. -/
theorem C7_counterexample :
    tryFormats goFormats "2/29".toList = some ⟨0, 2, 29⟩ ∧
    parseDate 2025 "2/29" = .ok ⟨2025, 3, 1⟩ ∧
    (⟨2025, 3, 1⟩ : GoDate) ≠ ⟨2025, 2, 29⟩ := by decide

theorem C7_witness :
    parseDate 2024 "2/29" = .ok (addYears ⟨0, 2, 29⟩ 2024) ∧
    addYears ⟨0, 2, 29⟩ 2024 = ⟨2024, 2, 29⟩ :=
  ⟨(C7_layouts_and_current_year.1 "2/29" 2024 ⟨0, 2, 29⟩ (by decide) rfl).1,
   (C7_layouts_and_current_year.1 "2/29" 2024 ⟨0, 2, 29⟩ (by decide) rfl).2 (by decide)⟩

/-! ### Claim C6 -/

/-- What the driver does with the row at 0-based index lineIdx when it
reaches it: a field-count failure of the csv read, a skipped first-row
header, a record-parse failure, or acceptance.  Derived row for row from
the loop body of ReadTransactions. -/
def rowOutcome (currentYear : Int) (accountID : String) (lineIdx : Nat)
    (record : List String) : Option ReadErr :=
  if record.length ≠ 3 then some (.fieldCount (lineIdx + 1) record.length)
  else if lineIdx = 0 ∧ isHeaderRow record then none
  else
    match parseTransaction currentYear record accountID with
    | .error e => some (.parseFailed (lineIdx + 1) e)
    | .ok _ => none

theorem readLoop_first_error (y : Int) (accId : String) :
    ∀ (rows : List (List String)) (n : Nat) (acc : List Transaction)
      (i : Nat) (hi : i < rows.length) (e : ReadErr),
      (∀ j, (hj : j < i) → rowOutcome y accId (n + j) (rows.get ⟨j, by omega⟩) = none) →
      rowOutcome y accId (n + i) (rows.get ⟨i, hi⟩) = some e →
      readLoop y accId rows n acc = .error e := by
  intro rows
  induction rows with
  | nil =>
      intro n acc i hi
      exact absurd hi (by simp)
  | cons r rest ih =>
      intro n acc i hi e hprev hcur
      match i with
      | 0 =>
          have hcur2 : rowOutcome y accId (n + 0) r = some e := hcur
          show readLoop y accId (r :: rest) n acc = .error e
          unfold readLoop
          unfold rowOutcome at hcur2
          by_cases hlen : r.length ≠ 3
          · rw [if_pos hlen] at hcur2
            injection hcur2 with h2
            rw [if_pos hlen, ← h2]
          · rw [if_neg hlen] at hcur2
            rw [if_neg hlen]
            by_cases hhd : n + 0 = 0 ∧ isHeaderRow r = true
            · rw [if_pos hhd] at hcur2; cases hcur2
            · rw [if_neg hhd] at hcur2
              have hhd2 : ¬(n + 1 = 1 ∧ isHeaderRow r = true) :=
                fun hc => hhd ⟨by omega, hc.2⟩
              rw [if_neg hhd2]
              rcases hp : parseTransaction y r accId with e2 | t
              · rw [hp] at hcur2
                dsimp only at hcur2
                injection hcur2 with h2
                rw [← h2]
              · rw [hp] at hcur2
                dsimp only at hcur2
                cases hcur2
      | i2 + 1 =>
          have hcur2 : rowOutcome y accId (n + (i2 + 1))
              (rest.get ⟨i2, by simpa using hi⟩) = some e := hcur
          have h0 : rowOutcome y accId (n + 0) r = none := hprev 0 (by omega)
          show readLoop y accId (r :: rest) n acc = .error e
          unfold readLoop
          unfold rowOutcome at h0
          by_cases hlen : r.length ≠ 3
          · rw [if_pos hlen] at h0; cases h0
          · rw [if_neg hlen] at h0
            rw [if_neg hlen]
            by_cases hhd : n + 0 = 0 ∧ isHeaderRow r = true
            · have hhd2 : n + 1 = 1 ∧ isHeaderRow r = true := ⟨by omega, hhd.2⟩
              rw [if_pos hhd2]
              apply ih (n + 1) acc i2 (by simpa using hi) e
              · intro j hj
                have hpj := hprev (j + 1) (by omega)
                rw [show n + 1 + j = n + (j + 1) from by omega]
                exact hpj
              · rw [show n + 1 + i2 = n + (i2 + 1) from by omega]
                exact hcur2
            · rw [if_neg hhd] at h0
              have hhd2 : ¬(n + 1 = 1 ∧ isHeaderRow r = true) :=
                fun hc => hhd ⟨by omega, hc.2⟩
              rw [if_neg hhd2]
              rcases hp : parseTransaction y r accId with e2 | t
              · rw [hp] at h0
                dsimp only at h0
                cases h0
              · dsimp only
                apply ih (n + 1) (t :: acc) i2 (by simpa using hi) e
                · intro j hj
                  have hpj := hprev (j + 1) (by omega)
                  rw [show n + 1 + j = n + (j + 1) from by omega]
                  exact hpj
                · rw [show n + 1 + i2 = n + (i2 + 1) from by omega]
                  exact hcur2

/-- C6: the first row the driver cannot process (field count other than 3,
or a record-parse failure; the first row is exempt when it is a skipped
header) aborts the whole ingestion with an error carrying the 1-based line
number of that row and the underlying cause; the result is the error alone,
so no transaction sequence — in particular no partial prefix — is returned. -/
theorem C6_first_failure_aborts (y : Int) (accId : String)
    (rows : List (List String)) (i : Nat) (hi : i < rows.length) (e : ReadErr)
    (hprev : ∀ j, (hj : j < i) → rowOutcome y accId j (rows.get ⟨j, by omega⟩) = none)
    (hcur : rowOutcome y accId i (rows.get ⟨i, hi⟩) = some e) :
    readTransactions y rows accId = .error e ∧ e.line = i + 1 := by
  constructor
  · apply readLoop_first_error y accId rows 0 [] i hi e
    · intro j hj
      rw [zero_add]
      exact hprev j hj
    · rw [zero_add]
      exact hcur
  · unfold rowOutcome at hcur
    by_cases hlen : (rows.get ⟨i, hi⟩).length ≠ 3
    · rw [if_pos hlen] at hcur
      injection hcur with h2
      rw [← h2]
      rfl
    · rw [if_neg hlen] at hcur
      by_cases hhd : i = 0 ∧ isHeaderRow (rows.get ⟨i, hi⟩) = true
      · rw [if_pos hhd] at hcur; cases hcur
      · rw [if_neg hhd] at hcur
        rcases hp : parseTransaction y (rows.get ⟨i, hi⟩) accId with e2 | t
        · rw [hp] at hcur
          dsimp only at hcur
          injection hcur with h2
          rw [← h2]
          rfl
        · rw [hp] at hcur
          dsimp only at hcur
          cases hcur

theorem C6_witness :
    readTransactions 2023 [["1", "7/15", "+60.5"], ["2", "bad"]] "acc" =
        .error (.fieldCount 2 2) ∧ (ReadErr.fieldCount 2 2).line = 2 :=
  C6_first_failure_aborts 2023 "acc" [["1", "7/15", "+60.5"], ["2", "bad"]] 1
    (by decide) (.fieldCount 2 2)
    (by
      intro j hj
      have hj0 : j = 0 := by omega
      subst hj0
      show rowOutcome 2023 "acc" 0 ["1", "7/15", "+60.5"] = none
      decide)
    (by
      show rowOutcome 2023 "acc" 1 ["2", "bad"] = some (.fieldCount 2 2)
      decide)

/-! ### Grouping lemmas (calculator.groupTransactionsByMonth) -/

/-- Groups are well formed: non-empty, and every member's month name is the
group key. -/
def goodGroups (gs : List (String × List Transaction)) : Prop :=
  ∀ g ∈ gs, g.2 ≠ [] ∧ ∀ x ∈ g.2, monthName x.date.month = g.1

theorem insertGroup_good (t : Transaction) (gs : List (String × List Transaction))
    (h : goodGroups gs) :
    goodGroups (insertGroup (monthName t.date.month) t gs) := by
  induction gs with
  | nil =>
      intro g hg
      simp only [insertGroup, List.mem_singleton] at hg
      subst hg
      exact ⟨by simp, by intro x hx; simp at hx; subst hx; rfl⟩
  | cons g0 rest ih =>
      intro g hg
      unfold insertGroup at hg
      split at hg
      · rename_i hkey
        rcases List.mem_cons.mp hg with rfl | hrest
        · refine ⟨by simp, ?_⟩
          intro x hx
          rcases List.mem_append.mp hx with hold | hnew
          · exact (h g0 (by simp)).2 x hold
          · simp at hnew
            subst hnew
            exact hkey.symm
        · exact h g (List.mem_cons_of_mem _ hrest)
      · rcases List.mem_cons.mp hg with rfl | hrest
        · exact h g (by simp)
        · exact ih (fun g2 hg2 => h g2 (List.mem_cons_of_mem _ hg2)) g hrest

theorem insertGroup_keys (key : String) (t : Transaction)
    (gs : List (String × List Transaction)) :
    (insertGroup key t gs).map Prod.fst =
      if key ∈ gs.map Prod.fst then gs.map Prod.fst
      else gs.map Prod.fst ++ [key] := by
  induction gs with
  | nil => simp [insertGroup]
  | cons g0 rest ih =>
      unfold insertGroup
      split
      · rename_i hkey
        simp [hkey]
      · rename_i hkey
        have hne : ¬key = g0.1 := fun hc => hkey hc.symm
        simp only [List.map_cons, List.mem_cons, hne, false_or]
        rw [ih]
        split <;> simp

theorem insertGroup_keys_nodup (key : String) (t : Transaction)
    (gs : List (String × List Transaction))
    (h : (gs.map Prod.fst).Nodup) :
    ((insertGroup key t gs).map Prod.fst).Nodup := by
  rw [insertGroup_keys]
  split
  · exact h
  · rename_i hmem
    simp [List.nodup_append, h, hmem]

/-- The inserted transaction lands in the group keyed by its key. -/
theorem insertGroup_mem_new (key : String) (t : Transaction)
    (gs : List (String × List Transaction)) :
    ∃ g, g ∈ insertGroup key t gs ∧ g.1 = key ∧ t ∈ g.2 := by
  induction gs with
  | nil => exact ⟨(key, [t]), by simp [insertGroup]⟩
  | cons g0 rest ih =>
      unfold insertGroup
      split
      · rename_i hkey
        exact ⟨(g0.1, g0.2 ++ [t]), by simp [hkey]⟩
      · obtain ⟨g, hg, hk, ht⟩ := ih
        exact ⟨g, List.mem_cons_of_mem _ hg, hk, ht⟩

/-- Existing members survive an insertion, in a group with the same key. -/
theorem insertGroup_mem_old (key : String) (t : Transaction)
    (gs : List (String × List Transaction)) (g : String × List Transaction)
    (hg : g ∈ gs) (x : Transaction) (hx : x ∈ g.2) :
    ∃ g2, g2 ∈ insertGroup key t gs ∧ g2.1 = g.1 ∧ x ∈ g2.2 := by
  induction gs with
  | nil => cases hg
  | cons g0 rest ih =>
      unfold insertGroup
      split
      · rename_i hkey
        rcases List.mem_cons.mp hg with rfl | hrest
        · exact ⟨(g.1, g.2 ++ [t]), by simp, rfl, by simp [hx]⟩
        · exact ⟨g, List.mem_cons_of_mem _ hrest, rfl, hx⟩
      · rcases List.mem_cons.mp hg with rfl | hrest
        · exact ⟨g, by simp, rfl, hx⟩
        · obtain ⟨g2, hg2, hk2, hx2⟩ := ih hrest
          exact ⟨g2, List.mem_cons_of_mem _ hg2, hk2, hx2⟩

/-- Every member of a group after an insertion is the inserted transaction
or a member of some original group. -/
theorem insertGroup_mem_inv (key : String) (t : Transaction)
    (gs : List (String × List Transaction)) (g2 : String × List Transaction)
    (hg2 : g2 ∈ insertGroup key t gs) (x : Transaction) (hx : x ∈ g2.2) :
    x = t ∨ ∃ g, g ∈ gs ∧ x ∈ g.2 := by
  induction gs with
  | nil =>
      simp only [insertGroup, List.mem_singleton] at hg2
      subst hg2
      simp at hx
      exact Or.inl hx
  | cons g0 rest ih =>
      unfold insertGroup at hg2
      split at hg2
      · rcases List.mem_cons.mp hg2 with rfl | hrest
        · rcases List.mem_append.mp hx with hold | hnew
          · exact Or.inr ⟨g0, by simp, hold⟩
          · simp at hnew
            exact Or.inl hnew
        · exact Or.inr ⟨g2, List.mem_cons_of_mem _ hrest, hx⟩
      · rcases List.mem_cons.mp hg2 with rfl | hrest
        · exact Or.inr ⟨g2, by simp, hx⟩
        · rcases ih hrest with h1 | ⟨g, hg, hxg⟩
          · exact Or.inl h1
          · exact Or.inr ⟨g, List.mem_cons_of_mem _ hg, hxg⟩

/-- The transaction-grouping fold, named for the lemmas below. -/
def groupStep (acc : List (String × List Transaction)) (t : Transaction) :
    List (String × List Transaction) :=
  insertGroup (monthName t.date.month) t acc

theorem groupTransactionsByMonth_eq (txs : List Transaction) :
    groupTransactionsByMonth txs = txs.foldl groupStep [] := rfl

theorem foldl_groupStep_good (txs : List Transaction) :
    ∀ acc, goodGroups acc → goodGroups (txs.foldl groupStep acc) := by
  induction txs with
  | nil => intro acc h; exact h
  | cons t rest ih =>
      intro acc h
      exact ih (groupStep acc t) (insertGroup_good t acc h)

theorem groupTransactionsByMonth_good (txs : List Transaction) :
    goodGroups (groupTransactionsByMonth txs) := by
  rw [groupTransactionsByMonth_eq]
  exact foldl_groupStep_good txs [] (by intro g hg; cases hg)

theorem foldl_groupStep_keys_nodup (txs : List Transaction) :
    ∀ acc, (acc.map Prod.fst).Nodup → ((txs.foldl groupStep acc).map Prod.fst).Nodup := by
  induction txs with
  | nil => intro acc h; exact h
  | cons t rest ih =>
      intro acc h
      exact ih (groupStep acc t) (insertGroup_keys_nodup _ t acc h)

theorem groupTransactionsByMonth_keys_nodup (txs : List Transaction) :
    ((groupTransactionsByMonth txs).map Prod.fst).Nodup := by
  rw [groupTransactionsByMonth_eq]
  exact foldl_groupStep_keys_nodup txs [] (by simp)

theorem foldl_groupStep_mem_preserve (txs : List Transaction) :
    ∀ acc g x, g ∈ acc → x ∈ g.2 →
      ∃ g2, g2 ∈ txs.foldl groupStep acc ∧ g2.1 = g.1 ∧ x ∈ g2.2 := by
  induction txs with
  | nil => intro acc g x hg hx; exact ⟨g, hg, rfl, hx⟩
  | cons t rest ih =>
      intro acc g x hg hx
      obtain ⟨g2, hg2, hk2, hx2⟩ := insertGroup_mem_old (monthName t.date.month) t acc g hg x hx
      obtain ⟨g3, hg3, hk3, hx3⟩ := ih (groupStep acc t) g2 x hg2 hx2
      exact ⟨g3, hg3, hk3.trans hk2, hx3⟩

theorem foldl_groupStep_mem (txs : List Transaction) :
    ∀ acc t, t ∈ txs →
      ∃ g, g ∈ txs.foldl groupStep acc ∧ g.1 = monthName t.date.month ∧ t ∈ g.2 := by
  induction txs with
  | nil => intro acc t ht; cases ht
  | cons t0 rest ih =>
      intro acc t ht
      rcases List.mem_cons.mp ht with rfl | hrest
      · obtain ⟨g, hg, hk, hmem⟩ := insertGroup_mem_new (monthName t.date.month) t acc
        obtain ⟨g2, hg2, hk2, hmem2⟩ :=
          foldl_groupStep_mem_preserve rest (groupStep acc t) g t hg hmem
        exact ⟨g2, hg2, hk2.trans hk, hmem2⟩
      · exact ih (groupStep acc t0) t hrest

/-- Every listed transaction ends up in the group keyed by its month name. -/
theorem groupTransactionsByMonth_mem (txs : List Transaction) (t : Transaction)
    (ht : t ∈ txs) :
    ∃ g, g ∈ groupTransactionsByMonth txs ∧ g.1 = monthName t.date.month ∧ t ∈ g.2 := by
  rw [groupTransactionsByMonth_eq]
  exact foldl_groupStep_mem txs [] t ht

theorem foldl_groupStep_mem_inv (txs : List Transaction) :
    ∀ acc g x, g ∈ txs.foldl groupStep acc → x ∈ g.2 →
      (∃ g0, g0 ∈ acc ∧ x ∈ g0.2) ∨ x ∈ txs := by
  induction txs with
  | nil => intro acc g x hg hx; exact Or.inl ⟨g, hg, hx⟩
  | cons t0 rest ih =>
      intro acc g x hg hx
      rcases ih (groupStep acc t0) g x hg hx with ⟨g0, hg0, hx0⟩ | hmem
      · rcases insertGroup_mem_inv (monthName t0.date.month) t0 acc g0 hg0 x hx0 with
          rfl | ⟨g1, hg1, hx1⟩
        · exact Or.inr (by simp)
        · exact Or.inl ⟨g1, hg1, hx1⟩
      · exact Or.inr (List.mem_cons_of_mem _ hmem)

/-- Group members come from the grouped list. -/
theorem groupTransactionsByMonth_mem_inv (txs : List Transaction)
    (g : String × List Transaction) (hg : g ∈ groupTransactionsByMonth txs)
    (x : Transaction) (hx : x ∈ g.2) : x ∈ txs := by
  rw [groupTransactionsByMonth_eq] at hg
  rcases foldl_groupStep_mem_inv txs [] g x hg hx with ⟨g0, hg0, _⟩ | h
  · cases hg0
  · exact h

/-! ### Sum lemmas for the aggregation claims -/

/-- The exact rational sum of a transaction list's amounts. -/
def amountsSum (txs : List Transaction) : ℚ :=
  (txs.map (fun t => t.amount.toRat)).sum

/-- The exact rational sum of the amounts across a group list. -/
def groupAmountsSum (gs : List (String × List Transaction)) : ℚ :=
  (gs.map (fun g => amountsSum g.2)).sum

theorem foldl_add_toRat (txs : List Transaction) :
    ∀ init : Dec,
      (txs.foldl (fun b tx => b.add tx.amount) init).toRat = init.toRat + amountsSum txs := by
  induction txs with
  | nil => intro init; simp [amountsSum]
  | cons t rest ih =>
      intro init
      show (rest.foldl (fun b tx => b.add tx.amount) (init.add t.amount)).toRat = _
      rw [ih (init.add t.amount), Dec.add_toRat]
      simp [amountsSum]
      ring

theorem insertGroup_sum (key : String) (t : Transaction)
    (gs : List (String × List Transaction)) :
    groupAmountsSum (insertGroup key t gs) = groupAmountsSum gs + t.amount.toRat := by
  induction gs with
  | nil => simp [insertGroup, groupAmountsSum, amountsSum]
  | cons g0 rest ih =>
      unfold insertGroup
      split
      · simp [groupAmountsSum, amountsSum]
        ring
      · simp only [groupAmountsSum, List.map_cons, List.sum_cons] at ih ⊢
        rw [ih]
        ring

theorem foldl_groupStep_sum (txs : List Transaction) :
    ∀ acc, groupAmountsSum (txs.foldl groupStep acc) = groupAmountsSum acc + amountsSum txs := by
  induction txs with
  | nil => intro acc; simp [amountsSum]
  | cons t rest ih =>
      intro acc
      show groupAmountsSum (rest.foldl groupStep (groupStep acc t)) = _
      rw [ih (groupStep acc t)]
      show groupAmountsSum (insertGroup (monthName t.date.month) t acc) + _ = _
      rw [insertGroup_sum]
      simp [amountsSum]
      ring

theorem groupTransactionsByMonth_sum (txs : List Transaction) :
    groupAmountsSum (groupTransactionsByMonth txs) = amountsSum txs := by
  rw [groupTransactionsByMonth_eq, foldl_groupStep_sum]
  simp [groupAmountsSum]

/-- The credit/debit split of the monthly loop: when every transaction is a
credit or a debit, the two running totals absorb exactly the amounts. -/
theorem monthLoop_sum (txs : List Transaction) :
    ∀ s : MonthAcc, (∀ t ∈ txs, t.type = Credit ∨ t.type = Debit) →
      (monthLoop txs s).totalCredits.toRat + (monthLoop txs s).totalDebits.toRat =
        s.totalCredits.toRat + s.totalDebits.toRat + amountsSum txs := by
  induction txs with
  | nil => intro s _; simp [monthLoop, amountsSum]
  | cons t rest ih =>
      intro s h
      have hrest : ∀ x ∈ rest, x.type = Credit ∨ x.type = Debit :=
        fun x hx => h x (List.mem_cons_of_mem _ hx)
      unfold monthLoop
      by_cases hc : t.isCredit = true
      · rw [if_pos hc]
        rw [ih _ hrest]
        simp [Dec.add_toRat, amountsSum]
        ring
      · rw [if_neg hc]
        have hd : t.isDebit = true := by
          rcases h t (by simp) with h1 | h1
          · exact absurd (by unfold Transaction.isCredit; rw [h1]; rfl) hc
          · unfold Transaction.isDebit; rw [h1]; rfl
        rw [if_pos hd]
        rw [ih _ hrest]
        simp [Dec.add_toRat, amountsSum]
        ring

/-! ### Claim C4 -/

theorem calculateMonthlySummary_totals (nowYear : Int) (key : String)
    (g : List Transaction) (hne : g ≠ [])
    (h : ∀ t ∈ g, t.type = Credit ∨ t.type = Debit) :
    (calculateMonthlySummary nowYear key g).totalCredits.toRat +
      (calculateMonthlySummary nowYear key g).totalDebits.toRat = amountsSum g := by
  match g with
  | [] => exact absurd rfl hne
  | t0 :: rest =>
      unfold calculateMonthlySummary
      dsimp only
      have := monthLoop_sum (t0 :: rest) ⟨Dec.zero, Dec.zero, 0, 0⟩ h
      simpa [Dec.zero_toRat] using this

/-- C4: when every transaction is a credit or a debit, the computed total
balance is the exact decimal sum of all amounts, and it equals the sum over
the monthly summaries of totalCredits plus totalDebits. -/
theorem C4_total_balance (nowYear : Int) (accId : String) (txs : List Transaction)
    (h : ∀ t ∈ txs, t.type = Credit ∨ t.type = Debit) (s : AccountSummary)
    (hs : calculateSummary nowYear accId txs = .ok s) :
    s.totalBalance.toRat = amountsSum txs ∧
    s.totalBalance.toRat =
      (s.monthlySummaries.map
        (fun g => g.2.totalCredits.toRat + g.2.totalDebits.toRat)).sum := by
  unfold calculateSummary at hs
  by_cases hlen : txs.length = 0
  · rw [if_pos hlen] at hs
    injection hs with h2
    have htx : txs = [] := List.length_eq_zero.mp hlen
    subst htx
    rw [← h2]
    constructor <;> simp [amountsSum, Dec.zero_toRat]
  · rw [if_neg hlen] at hs
    dsimp only at hs
    injection hs with h2
    subst h2
    constructor
    · show (txs.foldl (fun b tx => b.add tx.amount) Dec.zero).toRat = _
      rw [foldl_add_toRat txs Dec.zero, Dec.zero_toRat, zero_add]
    · show (txs.foldl (fun b tx => b.add tx.amount) Dec.zero).toRat = _
      rw [foldl_add_toRat txs Dec.zero, Dec.zero_toRat, zero_add]
      show amountsSum txs =
        (((groupTransactionsByMonth txs).map
            (fun g => (g.1, calculateMonthlySummary nowYear g.1 g.2))).map
          (fun g => g.2.totalCredits.toRat + g.2.totalDebits.toRat)).sum
      rw [List.map_map]
      have hcong : ∀ g ∈ groupTransactionsByMonth txs,
          ((fun g : String × MonthlySummary =>
              g.2.totalCredits.toRat + g.2.totalDebits.toRat) ∘
            (fun g : String × List Transaction =>
              (g.1, calculateMonthlySummary nowYear g.1 g.2))) g = amountsSum g.2 := by
        intro g hg
        have hgood := groupTransactionsByMonth_good txs g hg
        exact calculateMonthlySummary_totals nowYear g.1 g.2 hgood.1
          (fun t ht => h t (groupTransactionsByMonth_mem_inv txs g hg t ht))
      rw [List.map_congr_left hcong]
      show amountsSum txs = groupAmountsSum (groupTransactionsByMonth txs)
      rw [groupTransactionsByMonth_sum]

def c4txA : Transaction := ⟨"acc", ⟨2023, 7, 15⟩, ⟨605, -1⟩, Credit, "Transaction 1"⟩

def c4txB : Transaction := ⟨"acc", ⟨2023, 7, 28⟩, ⟨-103, -1⟩, Debit, "Transaction 2"⟩

def c4summary : AccountSummary :=
  { accountId := "acc", totalBalance := ⟨502, -1⟩, totalTransactions := 2,
    monthlySummaries := [("July",
      { month := 7, year := 2023, transactionCount := 2,
        averageCredit := ⟨605000000000000000, -16⟩,
        averageDebit := ⟨-103000000000000000, -16⟩,
        totalCredits := ⟨605, -1⟩, totalDebits := ⟨-103, -1⟩,
        creditCount := 1, debitCount := 1 })] }

theorem C4_witness :
    calculateSummary 2023 "acc" [c4txA, c4txB] = .ok c4summary ∧
    c4summary.totalBalance.toRat = amountsSum [c4txA, c4txB] ∧
    c4summary.totalBalance.toRat =
      (c4summary.monthlySummaries.map
        (fun g => g.2.totalCredits.toRat + g.2.totalDebits.toRat)).sum :=
  ⟨by decide,
   (C4_total_balance 2023 "acc" [c4txA, c4txB] (by decide) c4summary (by decide)).1,
   (C4_total_balance 2023 "acc" [c4txA, c4txB] (by decide) c4summary (by decide)).2⟩

/-! ### Claim C8 -/

theorem keys_nodup_eq (gs : List (String × List Transaction))
    (h : (gs.map Prod.fst).Nodup) (g1 g2 : String × List Transaction)
    (h1 : g1 ∈ gs) (h2 : g2 ∈ gs) (hk : g1.1 = g2.1) : g1 = g2 := by
  induction gs with
  | nil => cases h1
  | cons g0 rest ih =>
      simp only [List.map_cons, List.nodup_cons] at h
      rcases List.mem_cons.mp h1 with rfl | hr1 <;> rcases List.mem_cons.mp h2 with rfl | hr2
      · rfl
      · exact absurd (hk ▸ List.mem_map.mpr ⟨g2, hr2, rfl⟩) h.1
      · exact absurd (hk ▸ List.mem_map.mpr ⟨g1, hr1, rfl⟩) h.1
      · exact ih h.2 hr1 hr2

/-- C8: transactions are grouped by calendar month name alone — every
transaction lands in the group keyed by its month name, all of a group's
members share that month name, and any two transactions with the same month
name (regardless of year) share one group; the reported month and year of a
non-empty group are those of its first transaction. -/
theorem C8_month_name_grouping :
    (∀ txs (t : Transaction), t ∈ txs →
      ∃ g, g ∈ groupTransactionsByMonth txs ∧ g.1 = monthName t.date.month ∧ t ∈ g.2) ∧
    (∀ txs g, g ∈ groupTransactionsByMonth txs →
      g.2 ≠ [] ∧ ∀ x ∈ g.2, monthName x.date.month = g.1) ∧
    (∀ txs (t1 t2 : Transaction) g1 g2,
      g1 ∈ groupTransactionsByMonth txs → g2 ∈ groupTransactionsByMonth txs →
      t1 ∈ g1.2 → t2 ∈ g2.2 →
      monthName t1.date.month = monthName t2.date.month → g1 = g2) ∧
    (∀ (nowYear : Int) (key : String) (t0 : Transaction) (rest : List Transaction),
      (calculateMonthlySummary nowYear key (t0 :: rest)).month = t0.date.month ∧
      (calculateMonthlySummary nowYear key (t0 :: rest)).year = t0.date.year) := by
  refine ⟨fun txs t ht => groupTransactionsByMonth_mem txs t ht,
          fun txs g hg => groupTransactionsByMonth_good txs g hg, ?_, ?_⟩
  · intro txs t1 t2 g1 g2 hg1 hg2 ht1 ht2 hmn
    have k1 := (groupTransactionsByMonth_good txs g1 hg1).2 t1 ht1
    have k2 := (groupTransactionsByMonth_good txs g2 hg2).2 t2 ht2
    exact keys_nodup_eq _ (groupTransactionsByMonth_keys_nodup txs) g1 g2 hg1 hg2
      (by rw [← k1, ← k2, hmn])
  · intro nowYear key t0 rest
    exact ⟨rfl, rfl⟩

def c8txA : Transaction := ⟨"acc", ⟨2023, 7, 15⟩, ⟨1, 0⟩, Credit, "Transaction a"⟩

def c8txB : Transaction := ⟨"acc", ⟨2024, 7, 2⟩, ⟨2, 0⟩, Credit, "Transaction b"⟩

theorem C8_witness :
    (∃ g, g ∈ groupTransactionsByMonth [c8txA, c8txB] ∧
      g.1 = monthName c8txB.date.month ∧ c8txB ∈ g.2) ∧
    groupTransactionsByMonth [c8txA, c8txB] = [("July", [c8txA, c8txB])] :=
  ⟨C8_month_name_grouping.1 [c8txA, c8txB] c8txB (by decide), by decide⟩

/-! ### Claim C9 -/

/-- C9: the aggregator never produces its error result (both return sites in
CalculateSummary yield a summary), the empty collection yields the
zero-valued summary, and every average is division-guarded: a monthly
average is the matching total divided by the matching count when that count
is positive, and exact zero when the count is zero; the report formatter is
a total function whose overall average lines are emitted under the same
positive-count guards, dividing total by count. -/
theorem C9_never_fails_and_guards :
    (∀ (nowYear : Int) (accId : String) (txs : List Transaction),
      ∃ s, calculateSummary nowYear accId txs = .ok s) ∧
    (∀ (nowYear : Int) (accId : String),
      calculateSummary nowYear accId [] =
        .ok { accountId := accId, totalBalance := Dec.zero,
              totalTransactions := 0, monthlySummaries := [] }) ∧
    (∀ (nowYear : Int) (key : String) (txs : List Transaction),
      (0 < (calculateMonthlySummary nowYear key txs).creditCount →
        (calculateMonthlySummary nowYear key txs).averageCredit =
          (calculateMonthlySummary nowYear key txs).totalCredits.div
            (Dec.fromInt ((calculateMonthlySummary nowYear key txs).creditCount : Int))) ∧
      ((calculateMonthlySummary nowYear key txs).creditCount = 0 →
        (calculateMonthlySummary nowYear key txs).averageCredit = Dec.zero) ∧
      (0 < (calculateMonthlySummary nowYear key txs).debitCount →
        (calculateMonthlySummary nowYear key txs).averageDebit =
          (calculateMonthlySummary nowYear key txs).totalDebits.div
            (Dec.fromInt ((calculateMonthlySummary nowYear key txs).debitCount : Int))) ∧
      ((calculateMonthlySummary nowYear key txs).debitCount = 0 →
        (calculateMonthlySummary nowYear key txs).averageDebit = Dec.zero)) ∧
    (∀ (s : AccountSummary) (order : List (String × MonthlySummary)),
      ((totalsLoop order ⟨Dec.zero, Dec.zero, 0, 0⟩).debitCount = 0 →
        formatSummaryForEmail s order =
          ("Total balance is " ++ s.totalBalance.stringFixed2 ++ "\n" ++
            formatCountLines order) ++
          (if 0 < (totalsLoop order ⟨Dec.zero, Dec.zero, 0, 0⟩).creditCount then
            "Average credit amount: " ++
              ((totalsLoop order ⟨Dec.zero, Dec.zero, 0, 0⟩).totalCredits.div
                (Dec.fromInt ((totalsLoop order ⟨Dec.zero, Dec.zero, 0, 0⟩).creditCount : Int))).stringFixed2
           else "")) ∧
      (0 < (totalsLoop order ⟨Dec.zero, Dec.zero, 0, 0⟩).debitCount →
        formatSummaryForEmail s order =
          ("Total balance is " ++ s.totalBalance.stringFixed2 ++ "\n" ++
            formatCountLines order) ++
          ("Average debit amount: " ++
            ((totalsLoop order ⟨Dec.zero, Dec.zero, 0, 0⟩).totalDebits.div
              (Dec.fromInt ((totalsLoop order ⟨Dec.zero, Dec.zero, 0, 0⟩).debitCount : Int))).stringFixed2
            ++ "\n") ++
          (if 0 < (totalsLoop order ⟨Dec.zero, Dec.zero, 0, 0⟩).creditCount then
            "Average credit amount: " ++
              ((totalsLoop order ⟨Dec.zero, Dec.zero, 0, 0⟩).totalCredits.div
                (Dec.fromInt ((totalsLoop order ⟨Dec.zero, Dec.zero, 0, 0⟩).creditCount : Int))).stringFixed2
           else ""))) := by
  refine ⟨?_, ?_, ?_, ?_⟩
  · intro nowYear accId txs
    unfold calculateSummary
    by_cases hlen : txs.length = 0
    · rw [if_pos hlen]
      exact ⟨_, rfl⟩
    · rw [if_neg hlen]
      exact ⟨_, rfl⟩
  · intro nowYear accId
    rfl
  · intro nowYear key txs
    match txs with
    | [] =>
        refine ⟨fun hc => absurd hc (by simp [calculateMonthlySummary]), fun _ => rfl,
                fun hc => absurd hc (by simp [calculateMonthlySummary]), fun _ => rfl⟩
    | t0 :: rest =>
        unfold calculateMonthlySummary
        dsimp only
        refine ⟨fun hc => ?_, fun hc => ?_, fun hc => ?_, fun hc => ?_⟩
        · rw [if_pos hc]
        · rw [if_neg (by omega)]
        · rw [if_pos hc]
        · rw [if_neg (by omega)]
  · intro s order
    unfold formatSummaryForEmail
    dsimp only
    constructor
    · intro hz
      rw [if_neg (by omega)]
      simp
    · intro hp
      rw [if_pos hp]

theorem C9_witness :
    calculateSummary 2023 "acc" [] =
      .ok { accountId := "acc", totalBalance := Dec.zero,
            totalTransactions := 0, monthlySummaries := [] } ∧
    (calculateMonthlySummary 2023 "July" []).averageCredit = Dec.zero ∧
    (calculateMonthlySummary 2023 "July" []).averageDebit = Dec.zero :=
  ⟨C9_never_fails_and_guards.2.1 2023 "acc",
   (C9_never_fails_and_guards.2.2.1 2023 "July" []).2.1 rfl,
   (C9_never_fails_and_guards.2.2.1 2023 "July" []).2.2.2 rfl⟩

/-! ### Claim C3 -/

theorem perm_pair_cases {α : Type} [DecidableEq α] (l : List α) (a b : α)
    (h : l.Perm [a, b]) : l = [a, b] ∨ l = [b, a] := by
  have hlen := h.length_eq
  match l with
  | [] => simp at hlen
  | [x] => simp at hlen
  | x :: y :: z :: rest => simp at hlen
  | [x, y] =>
      have hx : x ∈ [a, b] := h.subset (by simp)
      have hy : y ∈ [a, b] := h.subset (by simp)
      simp only [List.mem_cons, List.not_mem_nil, or_false] at hx hy
      by_cases hxa : x = a
      · by_cases hyb : y = b
        · left; rw [hxa, hyb]
        · have hya : y = a := by
            rcases hy with h1 | h1
            · exact h1
            · exact absurd h1 hyb
          by_cases hba : b = a
          · left; rw [hxa, hya, hba]
          · exfalso
            have hbmem : b ∈ [x, y] := h.symm.subset (by simp)
            rw [hxa, hya] at hbmem
            simp at hbmem
            exact hba hbmem
      · have hxb : x = b := by
          rcases hx with h1 | h1
          · exact absurd h1 hxa
          · exact h1
        by_cases hya : y = a
        · right; rw [hxb, hya]
        · have hyb : y = b := by
            rcases hy with h1 | h1
            · exact absurd h1 hya
            · exact h1
          have hab : ¬a = b := fun hc => hxa (by rw [hxb, hc])
          exfalso
          have hamem : a ∈ [x, y] := h.symm.subset (by simp)
          rw [hxb, hyb] at hamem
          simp at hamem
          exact hab hamem

/-- Splitting a character list at newline characters. -/
def splitLinesAux : List Char → List (List Char)
  | [] => [[]]
  | c :: rest =>
      let ls := splitLinesAux rest
      if c == '\n' then [] :: ls
      else (c :: ls.headI) :: ls.tail

/-- The lines of a string: the claim's measure for "the output contains the
line L". -/
def linesOf (s : String) : List String :=
  (splitLinesAux s.toList).map String.mk

/-- The fields of one monthly-summary map entry that FormatSummaryForEmail
reads: key, transaction count, the two totals, the two counts. -/
def formatFields (g : String × MonthlySummary) :
    String × Nat × Dec × Dec × Nat × Nat :=
  (g.1, g.2.transactionCount, g.2.totalCredits, g.2.totalDebits,
   g.2.creditCount, g.2.debitCount)

theorem formatCountLines_congr :
    ∀ (o1 o2 : List (String × MonthlySummary)),
      o1.map formatFields = o2.map formatFields →
      formatCountLines o1 = formatCountLines o2 := by
  intro o1
  induction o1 with
  | nil =>
      intro o2 h
      cases o2 with
      | nil => rfl
      | cons g2 rest2 => simp at h
  | cons g rest ih =>
      intro o2 h
      cases o2 with
      | nil => simp at h
      | cons g2 rest2 =>
          simp only [List.map_cons, List.cons.injEq] at h
          obtain ⟨hh, ht⟩ := h
          have h1e := congrArg (fun p : String × Nat × Dec × Dec × Nat × Nat => p.1) hh
          have h1 : g.1 = g2.1 := h1e
          have h2e := congrArg (fun p : String × Nat × Dec × Dec × Nat × Nat => p.2.1) hh
          have h2 : g.2.transactionCount = g2.2.transactionCount := h2e
          unfold formatCountLines
          rw [h1, h2, ih rest2 ht]

theorem totalsLoop_congr :
    ∀ (o1 o2 : List (String × MonthlySummary)),
      o1.map formatFields = o2.map formatFields →
      ∀ s, totalsLoop o1 s = totalsLoop o2 s := by
  intro o1
  induction o1 with
  | nil =>
      intro o2 h s
      cases o2 with
      | nil => rfl
      | cons g2 rest2 => simp at h
  | cons g rest ih =>
      intro o2 h s
      cases o2 with
      | nil => simp at h
      | cons g2 rest2 =>
          simp only [List.map_cons, List.cons.injEq] at h
          obtain ⟨hh, ht⟩ := h
          have h3e := congrArg (fun p : String × Nat × Dec × Dec × Nat × Nat => p.2.2.1) hh
          have h3 : g.2.totalCredits = g2.2.totalCredits := h3e
          have h4e := congrArg (fun p : String × Nat × Dec × Dec × Nat × Nat => p.2.2.2.1) hh
          have h4 : g.2.totalDebits = g2.2.totalDebits := h4e
          have h5e := congrArg (fun p : String × Nat × Dec × Dec × Nat × Nat => p.2.2.2.2.1) hh
          have h5 : g.2.creditCount = g2.2.creditCount := h5e
          have h6e := congrArg (fun p : String × Nat × Dec × Dec × Nat × Nat => p.2.2.2.2.2) hh
          have h6 : g.2.debitCount = g2.2.debitCount := h6e
          unfold totalsLoop
          rw [h3, h4, h5, h6]
          exact ih rest2 ht _

/-- FormatSummaryForEmail reads only the total balance and, per map entry,
the fields extracted by formatFields — in particular not the month/year. -/
theorem formatSummaryForEmail_congr (s1 s2 : AccountSummary)
    (o1 o2 : List (String × MonthlySummary))
    (hb : s1.totalBalance = s2.totalBalance)
    (h : o1.map formatFields = o2.map formatFields) :
    formatSummaryForEmail s1 o1 = formatSummaryForEmail s2 o2 := by
  unfold formatSummaryForEmail
  dsimp only
  rw [hb, formatCountLines_congr o1 o2 h, totalsLoop_congr o1 o2 h]

def c3t1 (y : Int) : Transaction :=
  ⟨"acc", ⟨0 + y, 7, 15⟩, ⟨605, -1⟩, Credit, "Transaction 1"⟩

def c3t2 (y : Int) : Transaction :=
  ⟨"acc", ⟨0 + y, 7, 28⟩, ⟨-103, -1⟩, Debit, "Transaction 2"⟩

def c3t3 (y : Int) : Transaction :=
  ⟨"acc", ⟨0 + y, 8, 2⟩, ⟨-2046, -2⟩, Debit, "Transaction 3"⟩

def c3t4 (y : Int) : Transaction :=
  ⟨"acc", ⟨0 + y, 8, 13⟩, ⟨10, 0⟩, Credit, "Transaction 4"⟩

def c3txs (y : Int) : List Transaction := [c3t1 y, c3t2 y, c3t3 y, c3t4 y]

def c3july (y : Int) : MonthlySummary :=
  { month := 7, year := 0 + y, transactionCount := 2,
    averageCredit := ⟨605000000000000000, -16⟩,
    averageDebit := ⟨-103000000000000000, -16⟩,
    totalCredits := ⟨605, -1⟩, totalDebits := ⟨-103, -1⟩,
    creditCount := 1, debitCount := 1 }

def c3august (y : Int) : MonthlySummary :=
  { month := 8, year := 0 + y, transactionCount := 2,
    averageCredit := ⟨100000000000000000, -16⟩,
    averageDebit := ⟨-204600000000000000, -16⟩,
    totalCredits := ⟨10, 0⟩, totalDebits := ⟨-2046, -2⟩,
    creditCount := 1, debitCount := 1 }

def c3summary (y : Int) : AccountSummary :=
  { accountId := "acc", totalBalance := ⟨3974, -2⟩, totalTransactions := 4,
    monthlySummaries := [("July", c3july y), ("August", c3august y)] }

set_option maxHeartbeats 2000000 in
theorem c3_read (y : Int) :
    readTransactions y exampleRows "acc" = .ok (c3txs y) := rfl

set_option maxHeartbeats 2000000 in
theorem c3_monthly_july (y : Int) :
    calculateMonthlySummary y "July" [c3t1 y, c3t2 y] = c3july y := by
  unfold calculateMonthlySummary
  dsimp only
  rw [show monthLoop [c3t1 y, c3t2 y] ⟨Dec.zero, Dec.zero, 0, 0⟩ =
      ⟨⟨605, -1⟩, ⟨-103, -1⟩, 1, 1⟩ from rfl]
  rfl

set_option maxHeartbeats 2000000 in
theorem c3_monthly_august (y : Int) :
    calculateMonthlySummary y "August" [c3t3 y, c3t4 y] = c3august y := by
  unfold calculateMonthlySummary
  dsimp only
  rw [show monthLoop [c3t3 y, c3t4 y] ⟨Dec.zero, Dec.zero, 0, 0⟩ =
      ⟨⟨10, 0⟩, ⟨-2046, -2⟩, 1, 1⟩ from rfl]
  rfl

set_option maxHeartbeats 2000000 in
theorem c3_summary (y : Int) :
    calculateSummary y "acc" (c3txs y) = .ok (c3summary y) := by
  unfold calculateSummary
  rw [if_neg (show ¬(c3txs y).length = 0 from by simp [c3txs])]
  dsimp only
  rw [show groupTransactionsByMonth (c3txs y) =
      [("July", [c3t1 y, c3t2 y]), ("August", [c3t3 y, c3t4 y])] from rfl]
  dsimp only [List.map]
  rw [c3_monthly_july, c3_monthly_august]
  rw [show (c3txs y).foldl (fun b tx => b.add tx.amount) Dec.zero = ⟨3974, -2⟩ from rfl]
  rfl

/-- C3: with any fixed current year, the spec's 4-row dataset parses and
aggregates to totalBalance 39.74 with exactly the two monthly groups July
(2 transactions, average credit 60.50, average debit -10.30) and August
(2 transactions, average credit 10.00, average debit -20.46), and for every
iteration order of the month map the formatted report contains the lines
"Total balance is 39.74", "Average debit amount: -15.38" and
"Average credit amount: 35.25". -/
theorem C3_worked_example (y : Int) :
    ∃ (ts : List Transaction) (s : AccountSummary),
      readTransactions y exampleRows "acc" = .ok ts ∧
      calculateSummary y "acc" ts = .ok s ∧
      s.totalBalance = ⟨3974, -2⟩ ∧ s.totalBalance.toRat = 1987 / 50 ∧
      (∃ js au, s.monthlySummaries = [("July", js), ("August", au)] ∧
        js.transactionCount = 2 ∧ js.averageCredit.toRat = 605 / 10 ∧
        js.averageDebit.toRat = -103 / 10 ∧ au.transactionCount = 2 ∧
        au.averageCredit.toRat = 10 ∧ au.averageDebit.toRat = -2046 / 100) ∧
      (∀ order, order.Perm s.monthlySummaries →
        "Total balance is 39.74" ∈ linesOf (formatSummaryForEmail s order) ∧
        "Average debit amount: -15.38" ∈ linesOf (formatSummaryForEmail s order) ∧
        "Average credit amount: 35.25" ∈ linesOf (formatSummaryForEmail s order)) := by
  refine ⟨c3txs y, c3summary y, c3_read y, c3_summary y, rfl, ?_, ?_, ?_⟩
  · show Dec.toRat ⟨3974, -2⟩ = 1987 / 50
    norm_num [Dec.toRat]
  · refine ⟨c3july y, c3august y, rfl, rfl, ?_, ?_, rfl, ?_, ?_⟩
    · show Dec.toRat ⟨605000000000000000, -16⟩ = 605 / 10
      norm_num [Dec.toRat]
    · show Dec.toRat ⟨-103000000000000000, -16⟩ = -103 / 10
      norm_num [Dec.toRat]
    · show Dec.toRat ⟨100000000000000000, -16⟩ = 10
      norm_num [Dec.toRat]
    · show Dec.toRat ⟨-204600000000000000, -16⟩ = -2046 / 100
      norm_num [Dec.toRat]
  · intro order hperm
    rcases perm_pair_cases order ("July", c3july y) ("August", c3august y) hperm with
      rfl | rfl
    · rw [show formatSummaryForEmail (c3summary y) [("July", c3july y), ("August", c3august y)] =
          formatSummaryForEmail (c3summary 0) [("July", c3july 0), ("August", c3august 0)] from
        formatSummaryForEmail_congr _ _ _ _ rfl rfl]
      refine ⟨by decide, by decide, by decide⟩
    · rw [show formatSummaryForEmail (c3summary y) [("August", c3august y), ("July", c3july y)] =
          formatSummaryForEmail (c3summary 0) [("August", c3august 0), ("July", c3july 0)] from
        formatSummaryForEmail_congr _ _ _ _ rfl rfl]
      refine ⟨by decide, by decide, by decide⟩

theorem C3_witness :
    "Average debit amount: -15.38" ∈
      linesOf (formatSummaryForEmail (c3summary 2023)
        [("August", c3august 2023), ("July", c3july 2023)]) := by
  obtain ⟨ts, s, h1, h2, _, _, _, hfmt⟩ := C3_worked_example 2023
  have hts : ts = c3txs 2023 := (Except.ok.inj ((c3_read 2023).symm.trans h1)).symm
  rw [hts] at h2
  have hs : s = c3summary 2023 := (Except.ok.inj ((c3_summary 2023).symm.trans h2)).symm
  subst hs
  exact (hfmt [("August", c3august 2023), ("July", c3july 2023)]
    (List.Perm.swap ("July", c3july 2023) ("August", c3august 2023) [])).2.1
